import Mathlib

/-!
# Verification of the azul UI-update pipeline core

Shallow embedding of the azul repository's core (crate `azul-core`):
tag assignment (`src/azul-core/src/ui_state.rs`), the timer/task/thread
scheduler primitives (`src/azul-core/src/async.rs`), the task API on the
application state (`src/azul-core/src/app.rs`) and the stack-checked
pointer (`src/azul-core/src/stack_checked_pointer.rs`).

Machine integers (`usize`, `u64`) are modelled as `Nat`; `Instant` and
`Duration` are modelled as `Nat` (the code only ever subtracts an earlier
instant from a later one and compares the difference to a duration).
Rust's ordered maps (`BTreeMap`, `FastHashMap`) are modelled as
association lists with insert-replaces-existing-key semantics; all
claims about them are stated through `lookup`, which is representation
independent.
-/

namespace Azul

/-- Association-list model of `BTreeMap`/`FastHashMap`: a list of
key-value pairs where `insert` replaces the binding of an existing key. -/
def Map (α β : Type) : Type := List (α × β)

instance {α β : Type} [DecidableEq α] [DecidableEq β] :
    DecidableEq (Map α β) :=
  inferInstanceAs (DecidableEq (List (α × β)))

namespace Map

variable {α β : Type} [DecidableEq α]

/-- The empty map (`BTreeMap::new()`). -/
def empty {α β : Type} : Map α β := []

/-- `BTreeMap::get`. -/
def lookup : Map α β → α → Option β
  | [], _ => none
  | (k', v') :: rest, k => if k = k' then some v' else lookup rest k

/-- `BTreeMap::insert`: replaces the value of an existing key, otherwise
appends a new binding. -/
def insert : Map α β → α → β → Map α β
  | [], k, v => [(k, v)]
  | (k', v') :: rest, k, v =>
      if k = k' then (k, v) :: rest else (k', v') :: insert rest k v

/-- `BTreeMap::is_empty`. -/
def isEmpty : Map α β → Bool
  | [] => true
  | _ :: _ => false

/-- `BTreeMap::remove`. -/
def remove : Map α β → α → Map α β
  | [], _ => []
  | (k', v') :: rest, k => if k = k' then rest else (k', v') :: remove rest k

theorem lookup_empty (k : α) : (empty : Map α β).lookup k = none := rfl

theorem lookup_insert (m : Map α β) (k : α) (v : β) (k' : α) :
    (m.insert k v).lookup k' = if k' = k then some v else m.lookup k' := by
  induction m with
  | nil =>
      by_cases h : k' = k <;> simp [insert, lookup, h]
  | cons hd tl ih =>
      obtain ⟨k₀, v₀⟩ := hd
      by_cases h0 : k = k₀
      · subst h0
        by_cases h : k' = k <;> simp [insert, lookup, h]
      · by_cases h : k' = k
        · subst h
          simp [insert, lookup, h0, ih]
        · by_cases h1 : k' = k₀
          · subst h1
            simp [insert, lookup, h0, h, ih]
          · simp [insert, lookup, h0, h, h1, ih]

theorem lookup_insert_self (m : Map α β) (k : α) (v : β) :
    (m.insert k v).lookup k = some v := by
  simp [lookup_insert]

theorem lookup_insert_ne (m : Map α β) (k : α) (v : β) (k' : α) (h : k' ≠ k) :
    (m.insert k v).lookup k' = m.lookup k' := by
  simp [lookup_insert, h]

omit [DecidableEq α] in
theorem isEmpty_iff (m : Map α β) : m.isEmpty = true ↔ m = [] := by
  cases m <;> simp [isEmpty]

end Map

/-- Two maps are exact inverses of each other: `(n, t)` is a binding of
the first iff `(t, n)` is a binding of the second. -/
def Inverse {α β : Type} [DecidableEq α] [DecidableEq β]
    (fwd : Map α β) (bwd : Map β α) : Prop :=
  ∀ n t, fwd.lookup n = some t ↔ bwd.lookup t = some n

theorem Inverse.empty {α β : Type} [DecidableEq α] [DecidableEq β] :
    Inverse (Map.empty : Map α β) (Map.empty : Map β α) := by
  intro n t
  simp [Map.lookup_empty]

/-- Inserting a fresh pair `(n, t)` (both keys absent) into a pair of
inverse maps keeps them inverse. -/
theorem Inverse.insert_fresh {α β : Type} [DecidableEq α] [DecidableEq β]
    {fwd : Map α β} {bwd : Map β α} (hinv : Inverse fwd bwd)
    {n : α} {t : β} (hn : fwd.lookup n = none) (ht : bwd.lookup t = none) :
    Inverse (fwd.insert n t) (bwd.insert t n) := by
  intro n' t'
  rw [Map.lookup_insert, Map.lookup_insert]
  by_cases hn' : n' = n
  · subst hn'
    by_cases ht' : t' = t
    · subst ht'; simp
    · simp only [if_pos rfl, if_neg ht']
      constructor
      · intro h
        exact absurd (Option.some.inj h).symm ht'
      · intro h
        exact absurd ((hinv n' t').mpr h) (by simp [hn])
  · by_cases ht' : t' = t
    · subst ht'
      simp only [if_neg hn', if_pos rfl]
      constructor
      · intro h
        exact absurd ((hinv n' t').mp h) (by simp [ht])
      · intro h
        exact absurd (Option.some.inj h).symm hn'
    · simpa only [if_neg hn', if_neg ht'] using hinv n' t'

/-- Re-inserting an already-present pair of a pair of inverse maps keeps
them inverse. -/
theorem Inverse.insert_existing {α β : Type} [DecidableEq α] [DecidableEq β]
    {fwd : Map α β} {bwd : Map β α} (hinv : Inverse fwd bwd)
    {n : α} {t : β} (hn : fwd.lookup n = some t) :
    Inverse (fwd.insert n t) (bwd.insert t n) := by
  have ht : bwd.lookup t = some n := (hinv n t).mp hn
  intro n' t'
  rw [Map.lookup_insert, Map.lookup_insert]
  by_cases hn' : n' = n
  · subst hn'
    by_cases ht' : t' = t
    · subst ht'; simp
    · simp only [if_pos rfl, if_neg ht']
      constructor
      · intro h
        exact absurd (Option.some.inj h).symm ht'
      · intro h
        have := (hinv n' t').mpr h
        rw [hn] at this
        exact absurd (Option.some.inj this).symm ht'
  · by_cases ht' : t' = t
    · subst ht'
      simp only [if_neg hn', if_pos rfl]
      constructor
      · intro h
        have := (hinv n' t').mp h
        rw [ht] at this
        exact absurd (Option.some.inj this).symm hn'
      · intro h
        exact absurd (Option.some.inj h).symm hn'
    · simpa only [if_neg hn', if_neg ht'] using hinv n' t'

/-! ## Data model of the document tree

The tree types live in `azul-core/src/dom.rs` and `azul-core/src/id_tree.rs`,
which are not part of the sources at hand; the definitions below carry a
`Modelled from the spec:` note and follow §3 of the specification. The
tag-assignment algorithm itself (`ui_state_from_dom`,
`ui_state_create_tags_for_hover_nodes`) is translated from
`azul-core/src/ui_state.rs`. -/

/-- Modelled from the spec: `NodeId` is a dense integer index within one
tree arena (`id_tree.rs` is not among the sources). -/
abbrev NodeId : Type := Nat

/-- Modelled from the spec: `TagId` is a monotonic integer assigned from a
process-wide counter that is reset at the start of each tag-assignment
pass (`dom.rs` is not among the sources). -/
abbrev TagId : Type := Nat

/-- Modelled from the spec: hover event filters (opaque payload of the
`Hover` family of `EventFilter`). -/
abbrev HoverEventFilter : Type := Nat

/-- Modelled from the spec: focus event filters. -/
abbrev FocusEventFilter : Type := Nat

/-- Modelled from the spec: "not" event filters. -/
abbrev NotEventFilter : Type := Nat

/-- Modelled from the spec: window event filters. -/
abbrev WindowEventFilter : Type := Nat

/-- Modelled from the spec: an event filter belongs to one of the four
families hover / focus / not / window (§4.D step 4). -/
inductive EventFilter : Type
  | hover (h : HoverEventFilter)
  | focus (f : FocusEventFilter)
  | notFamily (n : NotEventFilter)
  | window (w : WindowEventFilter)
deriving DecidableEq, Repr

/-- `EventFilter::as_hover_event_filter` (dom.rs): the hover payload when
the filter is of the hover family. -/
def EventFilter.as_hover_event_filter : EventFilter → Option HoverEventFilter
  | .hover h => some h
  | _ => none

/-- `EventFilter::as_focus_event_filter`. -/
def EventFilter.as_focus_event_filter : EventFilter → Option FocusEventFilter
  | .focus f => some f
  | _ => none

/-- `EventFilter::as_not_event_filter`. -/
def EventFilter.as_not_event_filter : EventFilter → Option NotEventFilter
  | .notFamily n => some n
  | _ => none

/-- `EventFilter::as_window_event_filter`. -/
def EventFilter.as_window_event_filter : EventFilter → Option WindowEventFilter
  | .window w => some w
  | _ => none

/-- Modelled from the spec: a callback is a plain function handle (§9
"treat callback values as plain function handles"). -/
abbrev Callback : Type := Nat

/-- Modelled from the spec: id of a default callback. -/
abbrev DefaultCallbackId : Type := Nat

/-- Modelled from the spec: explicit tab index of a node,
`None | Auto | OverrideZero | Override(u32)` (§3); the `None` case is an
absent `Option TabIndex`. -/
inductive TabIndex : Type
  | Auto
  | OverrideZero
  | Override (n : Nat)
deriving DecidableEq, Repr

/-- Modelled from the spec: name of a dynamic CSS override (opaque). -/
abbrev DomString : Type := Nat

/-- Opaque handle for a parsed CSS property value (`azul-css` is an
external collaborator). -/
abbrev CssProperty : Type := Nat

/-- Modelled from the spec: the per-node payload of the arena — callbacks
by event filter, default-callback ids by event filter, the draggable
flag, the optional explicit tab index and the dynamic CSS overrides
(§3 "Node"). The node variant, classes and ids play no role in tag
assignment and are omitted. -/
structure NodeData : Type where
  callbacks : List (EventFilter × Callback)
  default_callback_ids : List (EventFilter × DefaultCallbackId)
  is_draggable : Bool
  tab_index : Option TabIndex
  dynamic_css_overrides : List (DomString × CssProperty)
deriving DecidableEq, Repr

/-- Modelled from the spec: the arena in linear (insertion) order; node
`i` of the list has `NodeId` `i`, node 0 is the single root. -/
structure Dom : Type where
  nodes : List NodeData
deriving DecidableEq, Repr

/-- Modelled from the spec: stable identifier of a tree instance, an
auto-incremented counter value plus the optional
`(parent DomId, parent NodeId)` backref for nested trees (§3). -/
inductive DomId : Type
  | mk (id : Nat) (parent : Option (DomId × NodeId))

/-- Modelled from the spec: the process-wide id counters relevant to the
pipeline — the tag counter (reset at the start of each pass) and the DOM
counter (never reset) (§4.A). -/
structure Counters : Type where
  tag : Nat
  dom : Nat
deriving DecidableEq, Repr

/-- Modelled from the spec: `new_tag_id()` returns the current tag
counter value and increments it. -/
def new_tag_id (tc : Nat) : TagId × Nat := (tc, tc + 1)

/-- Modelled from the spec: `reset_tag_id()` resets the tag counter "so
that tag ids start at zero" (§4.D step 1). -/
def reset_tag_id (_tc : Nat) : Nat := 0

/-- Modelled from the spec: `DomId::new(parent)` allocates the next DOM
counter value and combines it with the parent backref (§4.D step 2). -/
def DomId.new (parent : Option (DomId × NodeId)) (domCounter : Nat) :
    DomId × Nat :=
  (DomId.mk domCounter parent, domCounter + 1)

/-- `ActiveHover` (ui_state.rs): whether an element is selected for
`:active` or for `:hover`. -/
inductive ActiveHover : Type
  | Active
  | Hover
deriving DecidableEq, Repr

/-- `HoverGroup` (ui_state.rs). -/
structure HoverGroup : Type where
  affects_layout : Bool
  active_or_hover : ActiveHover
deriving DecidableEq, Repr

/-- `UiState` (ui_state.rs), minus the type parameter `T` of the user
state: callbacks are plain handles. -/
structure UiState : Type where
  dom_id : DomId
  dom : Dom
  dynamic_css_overrides : Map NodeId (Map DomString CssProperty)
  tag_ids_to_hover_active_states : Map TagId (NodeId × HoverGroup)
  tab_index_tags : Map TagId (NodeId × TabIndex)
  draggable_tags : Map TagId NodeId
  tag_ids_to_node_ids : Map TagId NodeId
  node_ids_to_tag_ids : Map NodeId TagId
  hover_callbacks : Map NodeId (Map HoverEventFilter Callback)
  hover_default_callbacks : Map NodeId (Map HoverEventFilter DefaultCallbackId)
  focus_callbacks : Map NodeId (Map FocusEventFilter Callback)
  focus_default_callbacks : Map NodeId (Map FocusEventFilter DefaultCallbackId)
  not_callbacks : Map NodeId (Map NotEventFilter Callback)
  not_default_callbacks : Map NodeId (Map NotEventFilter DefaultCallbackId)
  window_callbacks : Map NodeId (Map WindowEventFilter Callback)
  window_default_callbacks : Map NodeId (Map WindowEventFilter DefaultCallbackId)

/-! ## Tag assignment (`ui_state_from_dom`, ui_state.rs lines 171-413)

The body of `ui_state_from_dom` iterates over the nodes in insertion
order and, for each node, expands the `filter_and_insert_callbacks!`
macro eight times (four filter families for the regular callbacks, four
for the default-callback ids), then handles the draggable flag, the
tab index, the tag↔node maps and the CSS overrides. The accumulator of
that loop is `FoldSt`; each macro expansion / step is its own
definition below, and `processNode` chains them in source order. -/

/-- Accumulator of the node loop of `ui_state_from_dom`: the maps being
built plus the process-wide tag counter. -/
structure FoldSt : Type where
  tag_counter : Nat
  tab_index_tags : Map TagId (NodeId × TabIndex)
  draggable_tags : Map TagId NodeId
  tag_ids_to_node_ids : Map TagId NodeId
  node_ids_to_tag_ids : Map NodeId TagId
  dynamic_css_overrides : Map NodeId (Map DomString CssProperty)
  hover_callbacks : Map NodeId (Map HoverEventFilter Callback)
  hover_default_callbacks : Map NodeId (Map HoverEventFilter DefaultCallbackId)
  focus_callbacks : Map NodeId (Map FocusEventFilter Callback)
  focus_default_callbacks : Map NodeId (Map FocusEventFilter DefaultCallbackId)
  not_callbacks : Map NodeId (Map NotEventFilter Callback)
  not_default_callbacks : Map NodeId (Map NotEventFilter DefaultCallbackId)
  window_callbacks : Map NodeId (Map WindowEventFilter Callback)
  window_default_callbacks : Map NodeId (Map WindowEventFilter DefaultCallbackId)

/-- The initial accumulator: empty maps, tag counter reset by
`dom::reset_tag_id()` (ui_state.rs line 256). -/
def FoldSt.initial (tc : Nat) : FoldSt where
  tag_counter := reset_tag_id tc
  tab_index_tags := Map.empty
  draggable_tags := Map.empty
  tag_ids_to_node_ids := Map.empty
  node_ids_to_tag_ids := Map.empty
  dynamic_css_overrides := Map.empty
  hover_callbacks := Map.empty
  hover_default_callbacks := Map.empty
  focus_callbacks := Map.empty
  focus_default_callbacks := Map.empty
  not_callbacks := Map.empty
  not_default_callbacks := Map.empty
  window_callbacks := Map.empty
  window_default_callbacks := Map.empty

/-- The `filter_map(..).collect::<BTreeMap<_,_>>()` of the
`filter_and_insert_callbacks!` macro (ui_state.rs lines 221-226):
project each `(EventFilter, cb)` pair through the family projection and
collect the survivors into a map. -/
def collectFilterMap {φ : Type} [DecidableEq φ]
    (f : EventFilter → Option φ) (src : List (EventFilter × Nat)) :
    Map φ Nat :=
  src.foldl
    (fun acc p =>
      match f p.1 with
      | some evt => acc.insert evt p.2
      | none => acc)
    Map.empty

/-- Tagged arm of `filter_and_insert_callbacks!` (ui_state.rs lines
232-253): if any callback of the family matched, record the collected
map under the node id and make sure `node_tag_id` is populated
(`unwrap_or_else(|| new_tag_id())`). Returns the updated callback map,
the new `node_tag_id` and the new tag counter. -/
def filterAndInsertTagged {φ : Type} [DecidableEq φ]
    (f : EventFilter → Option φ) (src : List (EventFilter × Nat))
    (node_id : NodeId) (acc : Map NodeId (Map φ Nat))
    (node_tag_id : Option TagId) (tc : Nat) :
    Map NodeId (Map φ Nat) × Option TagId × Nat :=
  let collected := collectFilterMap f src
  if collected.isEmpty then (acc, node_tag_id, tc)
  else
    match node_tag_id with
    | some t => (acc.insert node_id collected, some t, tc)
    | none =>
        let fresh := new_tag_id tc
        (acc.insert node_id collected, some fresh.1, fresh.2)

/-- Untagged arm of `filter_and_insert_callbacks!` (ui_state.rs lines
212-231), used for the window family: record the collected map but
never allocate a tag. -/
def filterAndInsertUntagged {φ : Type} [DecidableEq φ]
    (f : EventFilter → Option φ) (src : List (EventFilter × Nat))
    (node_id : NodeId) (acc : Map NodeId (Map φ Nat)) :
    Map NodeId (Map φ Nat) :=
  let collected := collectFilterMap f src
  if collected.isEmpty then acc else acc.insert node_id collected

/-- ui_state.rs lines 269-310: the four macro expansions over
`node.get_callbacks()`, guarded by `!node.get_callbacks().is_empty()`. -/
def regularCallbacksStep (node_id : NodeId) (node : NodeData)
    (st : FoldSt) : FoldSt × Option TagId :=
  if node.callbacks.isEmpty then (st, none)
  else
    let r1 := filterAndInsertTagged EventFilter.as_hover_event_filter
      node.callbacks node_id st.hover_callbacks none st.tag_counter
    let r2 := filterAndInsertTagged EventFilter.as_focus_event_filter
      node.callbacks node_id st.focus_callbacks r1.2.1 r1.2.2
    let r3 := filterAndInsertTagged EventFilter.as_not_event_filter
      node.callbacks node_id st.not_callbacks r2.2.1 r2.2.2
    let w := filterAndInsertUntagged EventFilter.as_window_event_filter
      node.callbacks node_id st.window_callbacks
    ({ st with
        hover_callbacks := r1.1
        focus_callbacks := r2.1
        not_callbacks := r3.1
        window_callbacks := w
        tag_counter := r3.2.2 },
     r3.2.1)

/-- ui_state.rs lines 312-353: the four macro expansions over
`node.get_default_callback_ids()`, guarded by
`!node.get_default_callback_ids().is_empty()`. -/
def defaultCallbacksStep (node_id : NodeId) (node : NodeData)
    (st : FoldSt) (node_tag_id : Option TagId) : FoldSt × Option TagId :=
  if node.default_callback_ids.isEmpty then (st, node_tag_id)
  else
    let r1 := filterAndInsertTagged EventFilter.as_hover_event_filter
      node.default_callback_ids node_id st.hover_default_callbacks
      node_tag_id st.tag_counter
    let r2 := filterAndInsertTagged EventFilter.as_focus_event_filter
      node.default_callback_ids node_id st.focus_default_callbacks
      r1.2.1 r1.2.2
    let r3 := filterAndInsertTagged EventFilter.as_not_event_filter
      node.default_callback_ids node_id st.not_default_callbacks
      r2.2.1 r2.2.2
    let w := filterAndInsertUntagged EventFilter.as_window_event_filter
      node.default_callback_ids node_id st.window_default_callbacks
    ({ st with
        hover_default_callbacks := r1.1
        focus_default_callbacks := r2.1
        not_default_callbacks := r3.1
        window_default_callbacks := w
        tag_counter := r3.2.2 },
     r3.2.1)

/-- ui_state.rs lines 355-359: if the node is draggable, ensure a tag and
register it in `draggable_tags`. -/
def draggableStep (node_id : NodeId) (node : NodeData)
    (st : FoldSt) (node_tag_id : Option TagId) : FoldSt × Option TagId :=
  if node.is_draggable then
    match node_tag_id with
    | some t =>
        ({ st with draggable_tags := st.draggable_tags.insert t node_id },
         some t)
    | none =>
        let fresh := new_tag_id st.tag_counter
        ({ st with
            draggable_tags := st.draggable_tags.insert fresh.1 node_id
            tag_counter := fresh.2 },
         some fresh.1)
  else (st, node_tag_id)

/-- ui_state.rs lines 361-376: compute the effective tab index — the
explicit one, or `TabIndex::Auto` when
`!focus_callbacks.is_empty() || !focus_default_callbacks.is_empty()`
(note: the source tests the whole accumulated maps, not this node's
entries) — and, if present, ensure a tag and register it in
`tab_index_tags`. -/
def tabIndexStep (node_id : NodeId) (node : NodeData)
    (st : FoldSt) (node_tag_id : Option TagId) : FoldSt × Option TagId :=
  let should_insert_tabindex_auto :=
    !st.focus_callbacks.isEmpty || !st.focus_default_callbacks.isEmpty
  let node_tab_index :=
    node.tab_index.or
      (if should_insert_tabindex_auto then some TabIndex.Auto else none)
  match node_tab_index with
  | some tab_index =>
      match node_tag_id with
      | some t =>
          ({ st with
              tab_index_tags := st.tab_index_tags.insert t (node_id, tab_index) },
           some t)
      | none =>
          let fresh := new_tag_id st.tag_counter
          ({ st with
              tab_index_tags := st.tab_index_tags.insert fresh.1 (node_id, tab_index)
              tag_counter := fresh.2 },
           some fresh.1)
  | none => (st, node_tag_id)

/-- ui_state.rs lines 378-381: if a tag was populated, insert both
directions into the tag↔node maps. -/
def tagMapsStep (node_id : NodeId) (st : FoldSt)
    (node_tag_id : Option TagId) : FoldSt :=
  match node_tag_id with
  | some t =>
      { st with
          tag_ids_to_node_ids := st.tag_ids_to_node_ids.insert t node_id
          node_ids_to_tag_ids := st.node_ids_to_tag_ids.insert node_id t }
  | none => st

/-- ui_state.rs lines 383-389: copy the node's dynamic CSS overrides. -/
def cssOverridesStep (node_id : NodeId) (node : NodeData)
    (st : FoldSt) : FoldSt :=
  if node.dynamic_css_overrides.isEmpty then st
  else
    { st with
        dynamic_css_overrides :=
          st.dynamic_css_overrides.insert node_id
            (node.dynamic_css_overrides.foldl
              (fun acc p => acc.insert p.1 p.2) Map.empty) }

/-- One iteration of the node loop of `ui_state_from_dom`
(ui_state.rs lines 263-390), with `node_tag_id` starting out absent. -/
def processNode (node_id : NodeId) (node : NodeData) (st : FoldSt) : FoldSt :=
  let s1 := regularCallbacksStep node_id node st
  let s2 := defaultCallbacksStep node_id node s1.1 s1.2
  let s3 := draggableStep node_id node s2.1 s2.2
  let s4 := tabIndexStep node_id node s3.1 s3.2
  let s5 := tagMapsStep node_id s4.1 s4.2
  cssOverridesStep node_id node s5

/-- The node loop itself: process the nodes of the arena in insertion
order, node `i` having `NodeId` `i`. -/
def runNodes (node_id : NodeId) (nodes : List NodeData) (st : FoldSt) : FoldSt :=
  match nodes with
  | [] => st
  | node :: rest => runNodes (node_id + 1) rest (processNode node_id node st)

/-- `ui_state_from_dom` (ui_state.rs lines 171-413). The process-wide id
counters are passed and returned explicitly. -/
def ui_state_from_dom (dom : Dom) (parent_dom_node_id : Option (DomId × NodeId))
    (c : Counters) : UiState × Counters :=
  let st := runNodes 0 dom.nodes (FoldSt.initial c.tag)
  let fresh_dom := DomId.new parent_dom_node_id c.dom
  ({ dom_id := fresh_dom.1
     dom := dom
     dynamic_css_overrides := st.dynamic_css_overrides
     tag_ids_to_hover_active_states := Map.empty
     tab_index_tags := st.tab_index_tags
     draggable_tags := st.draggable_tags
     tag_ids_to_node_ids := st.tag_ids_to_node_ids
     node_ids_to_tag_ids := st.node_ids_to_tag_ids
     hover_callbacks := st.hover_callbacks
     hover_default_callbacks := st.hover_default_callbacks
     focus_callbacks := st.focus_callbacks
     focus_default_callbacks := st.focus_default_callbacks
     not_callbacks := st.not_callbacks
     not_default_callbacks := st.not_default_callbacks
     window_callbacks := st.window_callbacks
     window_default_callbacks := st.window_default_callbacks },
   { tag := st.tag_counter, dom := fresh_dom.2 })

/-- `ui_state_create_tags_for_hover_nodes` (ui_state.rs lines 144-166):
for each node selected by a `:hover`/`:active` path, reuse its existing
tag or mint one, and record all three map entries. -/
def ui_state_create_tags_for_hover_nodes (ui_state : UiState)
    (hover_nodes : List (NodeId × HoverGroup)) (tc : Nat) : UiState × Nat :=
  hover_nodes.foldl
    (fun acc p =>
      let u := acc.1
      let hover_tag_tc : TagId × Nat :=
        match u.node_ids_to_tag_ids.lookup p.1 with
        | some tag_id => (tag_id, acc.2)
        | none => new_tag_id acc.2
      ({ u with
          node_ids_to_tag_ids := u.node_ids_to_tag_ids.insert p.1 hover_tag_tc.1
          tag_ids_to_node_ids := u.tag_ids_to_node_ids.insert hover_tag_tc.1 p.1
          tag_ids_to_hover_active_states :=
            u.tag_ids_to_hover_active_states.insert hover_tag_tc.1 (p.1, p.2) },
       hover_tag_tc.2))
    (ui_state, tc)

/-! ## Scheduler primitives (`azul-core/src/async.rs`)

Instants and durations are `Nat` (all `Instant` subtractions in the
source subtract an earlier instant from a later one). The callback
return types come from `azul-core/src/callbacks.rs`, which is not among
the sources; they are modelled from the spec ("It returns
`(RedrawVote, Terminate | Continue)`"). -/

/-- Modelled from the spec: a redraw vote. `Redraw` asks the frame driver
to re-run the pipeline, `DontRedraw` does not (the source encodes this
as `Option<()>` in callbacks.rs). -/
abbrev UpdateScreen : Type := Option Unit

/-- The positive redraw vote. -/
def Redraw : UpdateScreen := some ()

/-- The negative redraw vote (`DontRedraw`, imported by async.rs). -/
def DontRedraw : UpdateScreen := none

/-- `TerminateTimer` (async.rs lines 17-23). -/
inductive TerminateTimer : Type
  | Terminate
  | Continue
deriving DecidableEq, Repr

/-- Modelled from the spec: the return value of a timer callback,
`(RedrawVote, Terminate | Continue)`. -/
abbrev TimerCallbackReturn : Type := UpdateScreen × TerminateTimer

/-- `TimerId` (async.rs lines 28-31). -/
structure TimerId : Type where
  id : Nat
deriving DecidableEq, Repr

/-- `Timer` (async.rs lines 51-68), parametrised by the type `ι` of the
`TimerCallbackInfo` handed to the callback. -/
structure Timer (ι : Type) : Type where
  created : Nat
  last_run : Option Nat
  delay : Option Nat
  interval : Option Nat
  timeout : Option Nat
  callback : ι → TimerCallbackReturn

/-- `Timer::invoke` (async.rs lines 109-135). `Instant::now()` is passed
in as `now`; the mutation of `self` is returned as the second
component. -/
def Timer.invoke {ι : Type} (t : Timer ι) (now : Nat) (info : ι) :
    TimerCallbackReturn × Timer ι :=
  let delay := t.delay.getD 0
  let timeout_hit : Bool :=
    match t.timeout with
    | some timeout => decide (now - t.created > timeout)
    | none => false
  if timeout_hit then ((DontRedraw, TerminateTimer.Terminate), t)
  else
    let interval_skip : Bool :=
      match t.interval with
      | some interval =>
          let last_run :=
            match t.last_run with
            | some s => s
            | none => t.created + delay
          decide (now - last_run < interval)
      | none => false
    if interval_skip then ((DontRedraw, TerminateTimer.Continue), t)
    else
      let res := t.callback info
      (res, { t with last_run := some now })

/-- Result that joining a worker thread would observe: the thread either
ran to completion or terminated by panicking
(`JoinHandle::join`'s `Result<(), Box<dyn Any>>`). -/
inductive JoinResult : Type
  | finished
  | panicked
deriving DecidableEq, Repr

/-- Outcome of running a Rust destructor: either it returns normally or
it itself panics. -/
inductive DropOutcome : Type
  | normal
  | panicPropagated
deriving DecidableEq, Repr

/-- `Task` (async.rs lines 205-211): the join handle is present until
the thread has been joined; `dropcheck` is the weak liveness witness;
the continuation timer is spliced into the timer map on completion.
The join handle records what joining will observe. -/
structure Task (ι : Type) : Type where
  join_handle : Option JoinResult
  dropcheck_alive : Bool
  after_completion_timer : Option (Timer ι)

/-- `Task::is_finished` (async.rs lines 239-241): the weak witness can no
longer be upgraded. -/
def Task.is_finished {ι : Type} (t : Task ι) : Bool :=
  !t.dropcheck_alive

/-- `Drop for Task` (async.rs lines 244-250):
`if let Some(h) = self.join_handle.take() { let _ = h.join().unwrap(); }`.
Joining a panicked worker yields `Err`, and `.unwrap()` on it panics, so
the drop itself panics in that case. -/
def Task.dropRun {ι : Type} (t : Task ι) : DropOutcome × Task ι :=
  match t.join_handle with
  | none => (DropOutcome.normal, t)
  | some JoinResult.finished =>
      (DropOutcome.normal, { t with join_handle := none })
  | some JoinResult.panicked =>
      (DropOutcome.panicPropagated, { t with join_handle := none })

/-- `AwaitError` (async.rs lines 260-268). -/
inductive AwaitError : Type
  | ArcUnlockError
  | ThreadJoinError
  | MutexIntoInnerError
deriving DecidableEq, Repr

/-- Observable state of the `Arc<Mutex<T>>` slot of a `Thread` once the
worker has been joined: whether the main-thread `Arc` is the unique
owner, whether the mutex is poisoned, and the stored value. -/
structure ArcSlot (τ : Type) : Type where
  unique : Bool
  poisoned : Bool
  value : τ

/-- `Thread` (async.rs lines 254-257). -/
structure Thread (τ : Type) : Type where
  data : Option (ArcSlot τ)
  join_handle : Option JoinResult

/-- `Thread::new` (async.rs lines 298-320) as seen from the main thread:
both fields are populated; the eventual observable outcome of the worker
(join result, `Arc` uniqueness, mutex poisoning, produced value) is a
parameter of the model. -/
def Thread.new {τ : Type} (arc : ArcSlot τ) (jr : JoinResult) : Thread τ :=
  { data := some arc, join_handle := some jr }

/-- `Thread::r#await` (async.rs lines 323-336): take both fields, join
(a panicked worker gives `ThreadJoinError`), unwrap the `Arc`
(`ArcUnlockError` if not unique), unwrap the `Mutex`
(`MutexIntoInnerError` if poisoned). Returns `none` for the
`unwrap()` of an already-taken field, which cannot happen for a `Thread`
built by `Thread::new` (await consumes the value). Both fields are taken
before the first fallible step, so the state dropped afterwards has
`join_handle = none` on every path. -/
def Thread.awaitRun {τ : Type} (th : Thread τ) :
    Option ((Except AwaitError τ) × Thread τ) :=
  match th.join_handle, th.data with
  | some jr, some arc =>
      let emptied : Thread τ := { data := none, join_handle := none }
      match jr with
      | JoinResult.panicked => some (Except.error AwaitError.ThreadJoinError, emptied)
      | JoinResult.finished =>
          if !arc.unique then some (Except.error AwaitError.ArcUnlockError, emptied)
          else if arc.poisoned then
            some (Except.error AwaitError.MutexIntoInnerError, emptied)
          else some (Except.ok arc.value, emptied)
  | _, _ => none

/-- `Drop for Thread` (async.rs lines 339-345): panics exactly when the
join handle is still present, i.e. when `r#await` was never called. -/
def Thread.dropRun {τ : Type} (th : Thread τ) : DropOutcome :=
  match th.join_handle with
  | some _ => DropOutcome.panicPropagated
  | none => DropOutcome.normal

/-! ## Task API on the application state (`azul-core/src/app.rs`)

`AppState` (app.rs lines 15-47) with the `impl_task_api!` methods
(app.rs lines 66-99). The windows and resource catalogs play no role in
the claims and are omitted; `τ` is the user data type, `ι` the
callback-info type of timers and tasks. -/

structure AppState (ι τ : Type) : Type where
  data : τ
  timers : Map TimerId (Timer ι)
  tasks : List (Task ι)

namespace AppState

variable {ι τ : Type}

/-- `add_timer` (app.rs lines 69-71): `self.timers.insert(id, timer)`,
replacing an existing timer with the same id. -/
def add_timer (s : AppState ι τ) (id : TimerId) (timer : Timer ι) :
    AppState ι τ :=
  { s with timers := s.timers.insert id timer }

/-- `get_timer` (app.rs lines 77-79). -/
def get_timer (s : AppState ι τ) (timer_id : TimerId) : Option (Timer ι) :=
  s.timers.lookup timer_id

/-- `has_timer` (app.rs lines 73-75). -/
def has_timer (s : AppState ι τ) (timer_id : TimerId) : Bool :=
  (s.get_timer timer_id).isSome

/-- `delete_timer` (app.rs lines 81-83); the removed value is the prior
lookup. -/
def delete_timer (s : AppState ι τ) (timer_id : TimerId) :
    Option (Timer ι) × AppState ι τ :=
  (s.timers.lookup timer_id, { s with timers := s.timers.remove timer_id })

/-- `add_task` (app.rs lines 96-98). -/
def add_task (s : AppState ι τ) (task : Task ι) : AppState ι τ :=
  { s with tasks := s.tasks ++ [task] }

end AppState

/-! ## Stack-checked pointer (`azul-core/src/stack_checked_pointer.rs`)

Addresses and sizes are `Nat`. The direction probe (lines 142-149)
compares the addresses of two adjacent struct fields at runtime; it is a
boolean input of the model. -/

/-- `is_subtype_of` (stack_checked_pointer.rs lines 138-160): byte-range
containment of `[st, st + size_of::<U>()]` in `[t, t + size_of::<T>()]`
when the stack grows downwards, and of the mirrored intervals
otherwise. -/
def is_subtype_of (t : Nat) (sizeT : Nat) (st : Nat) (sizeU : Nat)
    (stack_grows_down : Bool) : Bool :=
  if stack_grows_down then
    decide (st ≥ t ∧ st + sizeU ≤ t + sizeT)
  else
    decide (st ≤ t ∧ st - sizeU ≥ t - sizeT)

/-- `StackCheckedPointer` (stack_checked_pointer.rs lines 19-31): the
type-erased address plus the `TypeId` of the erased pointee type
(`TypeId` is modelled as `Nat`). -/
structure StackCheckedPointer : Type where
  internal : Nat
  pointer_type : Nat
deriving DecidableEq, Repr

/-- `StackCheckedPointer::new` (stack_checked_pointer.rs lines 46-56):
`Some` exactly when `is_subtype_of` accepts, `None` otherwise; no other
exit path exists, so construction never panics. -/
def StackCheckedPointer.new (t : Nat) (sizeT : Nat) (st : Nat) (sizeU : Nat)
    (type_id_of_U : Nat) (stack_grows_down : Bool) :
    Option StackCheckedPointer :=
  if is_subtype_of t sizeT st sizeU stack_grows_down then
    some { internal := st, pointer_type := type_id_of_U }
  else none

/-! ## Helper lemmas about the node loop of `ui_state_from_dom` -/

/-- Provenance of the `node_tag_id` local while one node is processed:
either no tag was allocated yet and the counter is untouched, or the tag
at hand was allocated from the counter during this node (it lies between
the counter value at the start of the node and the current one). -/
def TagProv (tc0 : Nat) (ntid : Option TagId) (tc : Nat) : Prop :=
  (ntid = none ∧ tc = tc0) ∨ (∃ t, ntid = some t ∧ tc0 ≤ t ∧ t < tc)

theorem TagProv.init (tc0 : Nat) : TagProv tc0 none tc0 :=
  Or.inl ⟨rfl, rfl⟩

theorem TagProv.le {tc0 tc : Nat} {ntid : Option TagId}
    (h : TagProv tc0 ntid tc) : tc0 ≤ tc := by
  rcases h with ⟨-, rfl⟩ | ⟨t, ht, hle, hlt⟩
  · exact Nat.le_refl _
  · exact Nat.le_trans hle (Nat.le_of_lt hlt)

/-- A step of `filter_and_insert_callbacks!` either keeps `node_tag_id`
and the counter, or (only when no tag exists yet) allocates the current
counter value. -/
theorem TagProv.step {tc0 tc : Nat} {ntid : Option TagId}
    (h : TagProv tc0 ntid tc) {p : Option TagId × Nat}
    (hp : p = (ntid, tc) ∨ (ntid = none ∧ p = (some tc, tc + 1))) :
    TagProv tc0 p.1 p.2 := by
  rcases hp with rfl | ⟨hn, rfl⟩
  · exact h
  · subst hn
    rcases h with ⟨-, rfl⟩ | ⟨t, ht, -, -⟩
    · exact Or.inr ⟨tc, rfl, Nat.le_refl _, Nat.lt_succ_self _⟩
    · cases ht

/-- The second and third components of `filterAndInsertTagged` behave as
a `TagProv.step`. -/
theorem filterAndInsertTagged_snd {φ : Type} [DecidableEq φ]
    (f : EventFilter → Option φ) (src : List (EventFilter × Nat))
    (nid : NodeId) (acc : Map NodeId (Map φ Nat))
    (ntid : Option TagId) (tc : Nat) :
    (filterAndInsertTagged f src nid acc ntid tc).2 = (ntid, tc) ∨
      (ntid = none ∧
        (filterAndInsertTagged f src nid acc ntid tc).2 = (some tc, tc + 1)) := by
  simp only [filterAndInsertTagged]
  split
  · exact Or.inl rfl
  · cases ntid with
    | some t => exact Or.inl rfl
    | none => exact Or.inr ⟨rfl, rfl⟩

/-- `regularCallbacksStep` never touches the tag↔node maps, and its
`node_tag_id` output is governed by `TagProv`. -/
theorem regularCallbacksStep_spec (nid : NodeId) (node : NodeData)
    (st : FoldSt) :
    (regularCallbacksStep nid node st).1.tag_ids_to_node_ids =
        st.tag_ids_to_node_ids ∧
    (regularCallbacksStep nid node st).1.node_ids_to_tag_ids =
        st.node_ids_to_tag_ids ∧
    TagProv st.tag_counter (regularCallbacksStep nid node st).2
      (regularCallbacksStep nid node st).1.tag_counter := by
  simp only [regularCallbacksStep]
  split
  · exact ⟨rfl, rfl, TagProv.init _⟩
  · refine ⟨rfl, rfl, ?_⟩
    exact TagProv.step
      (TagProv.step
        (TagProv.step (TagProv.init st.tag_counter)
          (filterAndInsertTagged_snd EventFilter.as_hover_event_filter
            node.callbacks nid st.hover_callbacks none st.tag_counter))
        (filterAndInsertTagged_snd EventFilter.as_focus_event_filter
          node.callbacks nid st.focus_callbacks _ _))
      (filterAndInsertTagged_snd EventFilter.as_not_event_filter
        node.callbacks nid st.not_callbacks _ _)

/-- `defaultCallbacksStep` never touches the tag↔node maps and respects
`TagProv`. -/
theorem defaultCallbacksStep_spec (nid : NodeId) (node : NodeData)
    (st : FoldSt) (ntid : Option TagId) :
    (defaultCallbacksStep nid node st ntid).1.tag_ids_to_node_ids =
        st.tag_ids_to_node_ids ∧
    (defaultCallbacksStep nid node st ntid).1.node_ids_to_tag_ids =
        st.node_ids_to_tag_ids ∧
    (∀ tc0, TagProv tc0 ntid st.tag_counter →
      TagProv tc0 (defaultCallbacksStep nid node st ntid).2
        (defaultCallbacksStep nid node st ntid).1.tag_counter) := by
  simp only [defaultCallbacksStep]
  split
  · exact ⟨rfl, rfl, fun tc0 h => h⟩
  · refine ⟨rfl, rfl, fun tc0 h => ?_⟩
    exact TagProv.step
      (TagProv.step
        (TagProv.step h
          (filterAndInsertTagged_snd EventFilter.as_hover_event_filter
            node.default_callback_ids nid st.hover_default_callbacks
            ntid st.tag_counter))
        (filterAndInsertTagged_snd EventFilter.as_focus_event_filter
          node.default_callback_ids nid st.focus_default_callbacks _ _))
      (filterAndInsertTagged_snd EventFilter.as_not_event_filter
        node.default_callback_ids nid st.not_default_callbacks _ _)

/-- `draggableStep` never touches the tag↔node maps and respects
`TagProv`. -/
theorem draggableStep_spec (nid : NodeId) (node : NodeData)
    (st : FoldSt) (ntid : Option TagId) :
    (draggableStep nid node st ntid).1.tag_ids_to_node_ids =
        st.tag_ids_to_node_ids ∧
    (draggableStep nid node st ntid).1.node_ids_to_tag_ids =
        st.node_ids_to_tag_ids ∧
    (∀ tc0, TagProv tc0 ntid st.tag_counter →
      TagProv tc0 (draggableStep nid node st ntid).2
        (draggableStep nid node st ntid).1.tag_counter) := by
  simp only [draggableStep]
  split
  · cases ntid with
    | some t => exact ⟨rfl, rfl, fun tc0 h => h⟩
    | none =>
        refine ⟨rfl, rfl, fun tc0 h => ?_⟩
        exact TagProv.step h (Or.inr ⟨rfl, rfl⟩)
  · exact ⟨rfl, rfl, fun tc0 h => h⟩

/-- `tabIndexStep` never touches the tag↔node maps and respects
`TagProv`. -/
theorem tabIndexStep_spec (nid : NodeId) (node : NodeData)
    (st : FoldSt) (ntid : Option TagId) :
    (tabIndexStep nid node st ntid).1.tag_ids_to_node_ids =
        st.tag_ids_to_node_ids ∧
    (tabIndexStep nid node st ntid).1.node_ids_to_tag_ids =
        st.node_ids_to_tag_ids ∧
    (∀ tc0, TagProv tc0 ntid st.tag_counter →
      TagProv tc0 (tabIndexStep nid node st ntid).2
        (tabIndexStep nid node st ntid).1.tag_counter) := by
  simp only [tabIndexStep]
  split
  · cases ntid with
    | some t => exact ⟨rfl, rfl, fun tc0 h => h⟩
    | none =>
        refine ⟨rfl, rfl, fun tc0 h => ?_⟩
        exact TagProv.step h (Or.inr ⟨rfl, rfl⟩)
  · exact ⟨rfl, rfl, fun tc0 h => h⟩

/-- `cssOverridesStep` touches neither the tag↔node maps nor the
counter. -/
theorem cssOverridesStep_frame (nid : NodeId) (node : NodeData)
    (st : FoldSt) :
    (cssOverridesStep nid node st).tag_ids_to_node_ids =
        st.tag_ids_to_node_ids ∧
    (cssOverridesStep nid node st).node_ids_to_tag_ids =
        st.node_ids_to_tag_ids ∧
    (cssOverridesStep nid node st).tag_counter = st.tag_counter ∧
    (cssOverridesStep nid node st).focus_callbacks = st.focus_callbacks ∧
    (cssOverridesStep nid node st).focus_default_callbacks =
        st.focus_default_callbacks ∧
    (cssOverridesStep nid node st).window_callbacks = st.window_callbacks ∧
    (cssOverridesStep nid node st).window_default_callbacks =
        st.window_default_callbacks := by
  simp only [cssOverridesStep]
  split
  · exact ⟨rfl, rfl, rfl, rfl, rfl, rfl, rfl⟩
  · exact ⟨rfl, rfl, rfl, rfl, rfl, rfl, rfl⟩

theorem tagMapsStep_none (nid : NodeId) (st : FoldSt) :
    tagMapsStep nid st none = st := rfl

theorem tagMapsStep_some (nid : NodeId) (st : FoldSt) (t : TagId) :
    tagMapsStep nid st (some t) =
      { st with
          tag_ids_to_node_ids := st.tag_ids_to_node_ids.insert t nid
          node_ids_to_tag_ids := st.node_ids_to_tag_ids.insert nid t } := rfl

/-- One node-loop iteration either leaves the tag↔node maps alone, or
inserts exactly the pair `(t, nid)` for a tag `t` allocated at or after
the counter value at the start of the iteration; the counter never
decreases. -/
theorem processNode_pair_maps (nid : NodeId) (node : NodeData)
    (st : FoldSt) :
    st.tag_counter ≤ (processNode nid node st).tag_counter ∧
    (((processNode nid node st).tag_ids_to_node_ids = st.tag_ids_to_node_ids ∧
      (processNode nid node st).node_ids_to_tag_ids = st.node_ids_to_tag_ids) ∨
     (∃ t, st.tag_counter ≤ t ∧ t < (processNode nid node st).tag_counter ∧
       (processNode nid node st).tag_ids_to_node_ids =
         st.tag_ids_to_node_ids.insert t nid ∧
       (processNode nid node st).node_ids_to_tag_ids =
         st.node_ids_to_tag_ids.insert nid t)) := by
  simp only [processNode]
  obtain ⟨ha1, ha2, ha3⟩ := regularCallbacksStep_spec nid node st
  obtain ⟨hb1, hb2, hb3⟩ :=
    defaultCallbacksStep_spec nid node (regularCallbacksStep nid node st).1
      (regularCallbacksStep nid node st).2
  obtain ⟨hc1, hc2, hc3⟩ :=
    draggableStep_spec nid node
      (defaultCallbacksStep nid node (regularCallbacksStep nid node st).1
        (regularCallbacksStep nid node st).2).1
      (defaultCallbacksStep nid node (regularCallbacksStep nid node st).1
        (regularCallbacksStep nid node st).2).2
  obtain ⟨hd1, hd2, hd3⟩ :=
    tabIndexStep_spec nid node
      (draggableStep nid node
        (defaultCallbacksStep nid node (regularCallbacksStep nid node st).1
          (regularCallbacksStep nid node st).2).1
        (defaultCallbacksStep nid node (regularCallbacksStep nid node st).1
          (regularCallbacksStep nid node st).2).2).1
      (draggableStep nid node
        (defaultCallbacksStep nid node (regularCallbacksStep nid node st).1
          (regularCallbacksStep nid node st).2).1
        (defaultCallbacksStep nid node (regularCallbacksStep nid node st).1
          (regularCallbacksStep nid node st).2).2).2
  have hchain := hd3 st.tag_counter (hc3 st.tag_counter (hb3 st.tag_counter ha3))
  rcases hchain with ⟨hn, htc⟩ | ⟨t, hsome, hle, hlt⟩
  · rw [hn, tagMapsStep_none]
    refine ⟨?_, Or.inl ⟨?_, ?_⟩⟩
    · rw [(cssOverridesStep_frame nid node _).2.2.1, htc]
    · rw [(cssOverridesStep_frame nid node _).1, hd1, hc1, hb1, ha1]
    · rw [(cssOverridesStep_frame nid node _).2.1, hd2, hc2, hb2, ha2]
  · rw [hsome, tagMapsStep_some]
    refine ⟨?_, Or.inr ⟨t, hle, ?_, ?_, ?_⟩⟩
    · rw [(cssOverridesStep_frame nid node _).2.2.1]
      dsimp only
      exact Nat.le_trans hle (Nat.le_of_lt hlt)
    · rw [(cssOverridesStep_frame nid node _).2.2.1]
      dsimp only
      exact hlt
    · rw [(cssOverridesStep_frame nid node _).1]
      dsimp only
      rw [hd1, hc1, hb1, ha1]
    · rw [(cssOverridesStep_frame nid node _).2.1]
      dsimp only
      rw [hd2, hc2, hb2, ha2]

/-- If no pair of the source survives the family projection, nothing is
collected. -/
theorem collectFilterMap_eq_empty {φ : Type} [DecidableEq φ]
    (f : EventFilter → Option φ) (src : List (EventFilter × Nat))
    (h : ∀ p ∈ src, f p.1 = none) :
    collectFilterMap f src = Map.empty := by
  have haux : ∀ (l : List (EventFilter × Nat)) (acc : Map φ Nat),
      (∀ p ∈ l, f p.1 = none) →
      l.foldl (fun acc p =>
        match f p.1 with
        | some evt => acc.insert evt p.2
        | none => acc) acc = acc := by
    intro l
    induction l with
    | nil => intro acc _; rfl
    | cons hd tl ih =>
        intro acc hall
        rw [List.foldl_cons]
        have hhd : f hd.1 = none := hall hd (List.mem_cons_self hd tl)
        rw [hhd]
        exact ih acc fun p hp => hall p (List.mem_cons_of_mem hd hp)
  exact haux src Map.empty h

/-- A tagged filter step on an empty collection is the identity. -/
theorem filterAndInsertTagged_of_isEmpty {φ : Type} [DecidableEq φ]
    (f : EventFilter → Option φ) (src : List (EventFilter × Nat))
    (nid : NodeId) (acc : Map NodeId (Map φ Nat))
    (ntid : Option TagId) (tc : Nat)
    (h : (collectFilterMap f src).isEmpty = true) :
    filterAndInsertTagged f src nid acc ntid tc = (acc, ntid, tc) := by
  simp only [filterAndInsertTagged, h, if_true]

/-- Lookup characterization of the untagged (window) filter step. -/
theorem filterAndInsertUntagged_lookup {φ : Type} [DecidableEq φ]
    (f : EventFilter → Option φ) (src : List (EventFilter × Nat))
    (nid : NodeId) (acc : Map NodeId (Map φ Nat)) (k : NodeId) :
    (filterAndInsertUntagged f src nid acc).lookup k =
      if k = nid then
        (if (collectFilterMap f src).isEmpty then acc.lookup k
         else some (collectFilterMap f src))
      else acc.lookup k := by
  simp only [filterAndInsertUntagged]
  split
  · rename_i hemp
    by_cases hk : k = nid <;> simp [hk, hemp]
  · rw [Map.lookup_insert]

/-- The fields of the regular-callbacks step that belong to the default
callbacks are untouched. -/
theorem regularCallbacksStep_defaults_frame (nid : NodeId) (node : NodeData)
    (st : FoldSt) :
    (regularCallbacksStep nid node st).1.focus_default_callbacks =
        st.focus_default_callbacks ∧
    (regularCallbacksStep nid node st).1.window_default_callbacks =
        st.window_default_callbacks := by
  simp only [regularCallbacksStep]
  split
  · exact ⟨rfl, rfl⟩
  · exact ⟨rfl, rfl⟩

/-- If the node has no focus-family callbacks, the regular step leaves
the `focus_callbacks` map alone. -/
theorem regularCallbacksStep_focus_of_empty (nid : NodeId) (node : NodeData)
    (st : FoldSt)
    (h : (collectFilterMap EventFilter.as_focus_event_filter
        node.callbacks).isEmpty = true) :
    (regularCallbacksStep nid node st).1.focus_callbacks =
      st.focus_callbacks := by
  simp only [regularCallbacksStep]
  split
  · rfl
  · rw [filterAndInsertTagged_of_isEmpty _ _ _ _ _ _ h]

/-- The regular step's effect on `window_callbacks` is exactly the
untagged filter step. -/
theorem regularCallbacksStep_window_char (nid : NodeId) (node : NodeData)
    (st : FoldSt) :
    (regularCallbacksStep nid node st).1.window_callbacks =
      filterAndInsertUntagged EventFilter.as_window_event_filter
        node.callbacks nid st.window_callbacks := by
  simp only [regularCallbacksStep]
  split
  · rename_i h
    have hnil : node.callbacks = [] := by
      cases hc : node.callbacks with
      | nil => rfl
      | cons a l => rw [hc] at h; simp [List.isEmpty] at h
    rw [hnil]
    rfl
  · rfl

/-- The fields of the default-callbacks step that belong to the regular
callbacks are untouched. -/
theorem defaultCallbacksStep_regulars_frame (nid : NodeId) (node : NodeData)
    (st : FoldSt) (ntid : Option TagId) :
    (defaultCallbacksStep nid node st ntid).1.focus_callbacks =
        st.focus_callbacks ∧
    (defaultCallbacksStep nid node st ntid).1.window_callbacks =
        st.window_callbacks := by
  simp only [defaultCallbacksStep]
  split
  · exact ⟨rfl, rfl⟩
  · exact ⟨rfl, rfl⟩

/-- If the node has no focus-family default callbacks, the default step
leaves `focus_default_callbacks` alone. -/
theorem defaultCallbacksStep_focus_of_empty (nid : NodeId) (node : NodeData)
    (st : FoldSt) (ntid : Option TagId)
    (h : (collectFilterMap EventFilter.as_focus_event_filter
        node.default_callback_ids).isEmpty = true) :
    (defaultCallbacksStep nid node st ntid).1.focus_default_callbacks =
      st.focus_default_callbacks := by
  simp only [defaultCallbacksStep]
  split
  · rfl
  · rw [filterAndInsertTagged_of_isEmpty _ _ _ _ _ _ h]

/-- The default step's effect on `window_default_callbacks` is exactly
the untagged filter step. -/
theorem defaultCallbacksStep_window_char (nid : NodeId) (node : NodeData)
    (st : FoldSt) (ntid : Option TagId) :
    (defaultCallbacksStep nid node st ntid).1.window_default_callbacks =
      filterAndInsertUntagged EventFilter.as_window_event_filter
        node.default_callback_ids nid st.window_default_callbacks := by
  simp only [defaultCallbacksStep]
  split
  · rename_i h
    have hnil : node.default_callback_ids = [] := by
      cases hc : node.default_callback_ids with
      | nil => rfl
      | cons a l => rw [hc] at h; simp [List.isEmpty] at h
    rw [hnil]
    rfl
  · rfl

/-- The draggable step never touches the callback maps. -/
theorem draggableStep_callbacks_frame (nid : NodeId) (node : NodeData)
    (st : FoldSt) (ntid : Option TagId) :
    (draggableStep nid node st ntid).1.focus_callbacks = st.focus_callbacks ∧
    (draggableStep nid node st ntid).1.focus_default_callbacks =
        st.focus_default_callbacks ∧
    (draggableStep nid node st ntid).1.window_callbacks =
        st.window_callbacks ∧
    (draggableStep nid node st ntid).1.window_default_callbacks =
        st.window_default_callbacks := by
  simp only [draggableStep]
  split
  · cases ntid <;> exact ⟨rfl, rfl, rfl, rfl⟩
  · exact ⟨rfl, rfl, rfl, rfl⟩

/-- The tab-index step never touches the callback maps. -/
theorem tabIndexStep_callbacks_frame (nid : NodeId) (node : NodeData)
    (st : FoldSt) (ntid : Option TagId) :
    (tabIndexStep nid node st ntid).1.focus_callbacks = st.focus_callbacks ∧
    (tabIndexStep nid node st ntid).1.focus_default_callbacks =
        st.focus_default_callbacks ∧
    (tabIndexStep nid node st ntid).1.window_callbacks =
        st.window_callbacks ∧
    (tabIndexStep nid node st ntid).1.window_default_callbacks =
        st.window_default_callbacks := by
  simp only [tabIndexStep]
  split
  · split <;> exact ⟨rfl, rfl, rfl, rfl⟩
  · exact ⟨rfl, rfl, rfl, rfl⟩

/-- The tag↔node step never touches the callback maps. -/
theorem tagMapsStep_callbacks_frame (nid : NodeId) (st : FoldSt)
    (ntid : Option TagId) :
    (tagMapsStep nid st ntid).focus_callbacks = st.focus_callbacks ∧
    (tagMapsStep nid st ntid).focus_default_callbacks =
        st.focus_default_callbacks ∧
    (tagMapsStep nid st ntid).window_callbacks = st.window_callbacks ∧
    (tagMapsStep nid st ntid).window_default_callbacks =
        st.window_default_callbacks := by
  cases ntid <;> exact ⟨rfl, rfl, rfl, rfl⟩

/-- Loop invariant of the node loop: the tag↔node maps are inverse, all
tags in them are below the counter, and all node ids in them are below
the current iteration index. -/
def InvPair (i : Nat) (st : FoldSt) : Prop :=
  Inverse st.node_ids_to_tag_ids st.tag_ids_to_node_ids ∧
  (∀ t n, st.tag_ids_to_node_ids.lookup t = some n → t < st.tag_counter) ∧
  (∀ n t, st.node_ids_to_tag_ids.lookup n = some t → n < i)

theorem InvPair_initial (tc : Nat) : InvPair 0 (FoldSt.initial tc) := by
  refine ⟨Inverse.empty, ?_, ?_⟩
  · intro t n h
    exact absurd h (by simp [FoldSt.initial, Map.empty, Map.lookup])
  · intro n t h
    exact absurd h (by simp [FoldSt.initial, Map.empty, Map.lookup])

theorem InvPair.mono {i j : Nat} {st : FoldSt} (h : InvPair i st)
    (hij : i ≤ j) : InvPair j st :=
  ⟨h.1, h.2.1, fun n t hl => Nat.lt_of_lt_of_le (h.2.2 n t hl) hij⟩

theorem processNode_preserves_InvPair (i : Nat) (node : NodeData)
    (st : FoldSt) (h : InvPair i st) :
    InvPair (i + 1) (processNode i node st) := by
  obtain ⟨hmono, hcase⟩ := processNode_pair_maps i node st
  obtain ⟨hinv, htag, hnode⟩ := h
  rcases hcase with ⟨e1, e2⟩ | ⟨t, hle, hlt, e1, e2⟩
  · refine ⟨?_, ?_, ?_⟩
    · rw [e1, e2]; exact hinv
    · intro t n hl
      rw [e1] at hl
      exact Nat.lt_of_lt_of_le (htag t n hl) hmono
    · intro n t hl
      rw [e2] at hl
      exact Nat.lt_succ_of_lt (hnode n t hl)
  · have htfresh : st.tag_ids_to_node_ids.lookup t = none := by
      cases hl : st.tag_ids_to_node_ids.lookup t with
      | none => rfl
      | some n => exact absurd (htag t n hl) (Nat.not_lt.mpr hle)
    have hifresh : st.node_ids_to_tag_ids.lookup i = none := by
      cases hl : st.node_ids_to_tag_ids.lookup i with
      | none => rfl
      | some t' => exact absurd (hnode i t' hl) (Nat.lt_irrefl i)
    refine ⟨?_, ?_, ?_⟩
    · rw [e1, e2]
      exact Inverse.insert_fresh hinv hifresh htfresh
    · intro t' n hl
      rw [e1, Map.lookup_insert] at hl
      by_cases ht' : t' = t
      · subst ht'; exact hlt
      · rw [if_neg ht'] at hl
        exact Nat.lt_of_lt_of_le (Nat.lt_of_lt_of_le (htag t' n hl) hmono)
          (Nat.le_refl _)
    · intro n t' hl
      rw [e2, Map.lookup_insert] at hl
      by_cases hn' : n = i
      · subst hn'; exact Nat.lt_succ_self _
      · rw [if_neg hn'] at hl
        exact Nat.lt_succ_of_lt (hnode n t' hl)

theorem runNodes_preserves_InvPair (nodes : List NodeData) :
    ∀ (i : Nat) (st : FoldSt), InvPair i st →
      InvPair (i + nodes.length) (runNodes i nodes st) := by
  induction nodes with
  | nil => intro i st h; exact h
  | cons node rest ih =>
      intro i st h
      have h' := ih (i + 1) (processNode i node st)
        (processNode_preserves_InvPair i node st h)
      have hlen : i + (node :: rest).length = (i + 1) + rest.length := by
        simp [List.length_cons]
        omega
      rw [hlen]
      exact h'

/-- The state after the node loop of `ui_state_from_dom` satisfies the
invariant (with the returned tag counter bounding all tags). -/
theorem ui_state_from_dom_InvPair (dom : Dom)
    (parent : Option (DomId × NodeId)) (c : Counters) :
    Inverse (ui_state_from_dom dom parent c).1.node_ids_to_tag_ids
        (ui_state_from_dom dom parent c).1.tag_ids_to_node_ids ∧
    (∀ t n, (ui_state_from_dom dom parent c).1.tag_ids_to_node_ids.lookup t
        = some n → t < (ui_state_from_dom dom parent c).2.tag) := by
  have h := runNodes_preserves_InvPair dom.nodes 0 (FoldSt.initial c.tag)
    (InvPair_initial c.tag)
  exact ⟨h.1, h.2.1⟩

/-- One iteration of `ui_state_create_tags_for_hover_nodes` preserves
inversion of the tag↔node maps together with the tag bound. -/
theorem create_tags_step_preserves (u : UiState) (tc : Nat)
    (p : NodeId × HoverGroup)
    (hinv : Inverse u.node_ids_to_tag_ids u.tag_ids_to_node_ids)
    (hbound : ∀ t n, u.tag_ids_to_node_ids.lookup t = some n → t < tc) :
    let ht : TagId × Nat :=
      match u.node_ids_to_tag_ids.lookup p.1 with
      | some tag_id => (tag_id, tc)
      | none => new_tag_id tc
    Inverse (u.node_ids_to_tag_ids.insert p.1 ht.1)
        (u.tag_ids_to_node_ids.insert ht.1 p.1) ∧
    (∀ t n, (u.tag_ids_to_node_ids.insert ht.1 p.1).lookup t = some n →
      t < ht.2) := by
  intro ht
  cases hl : u.node_ids_to_tag_ids.lookup p.1 with
  | some tag_id =>
      simp only [ht, hl]
      constructor
      · exact Inverse.insert_existing hinv hl
      · intro t n hlk
        rw [Map.lookup_insert] at hlk
        by_cases hteq : t = tag_id
        · subst hteq
          exact hbound t p.1 ((hinv p.1 t).mp hl)
        · rw [if_neg hteq] at hlk
          exact hbound t n hlk
  | none =>
      have hfresh : u.tag_ids_to_node_ids.lookup tc = none := by
        cases hlk : u.tag_ids_to_node_ids.lookup tc with
        | none => rfl
        | some n => exact absurd (hbound tc n hlk) (Nat.lt_irrefl tc)
      simp only [ht, hl, new_tag_id]
      constructor
      · exact Inverse.insert_fresh hinv hl hfresh
      · intro t n hlk
        rw [Map.lookup_insert] at hlk
        by_cases hteq : t = tc
        · subst hteq; exact Nat.lt_succ_self _
        · rw [if_neg hteq] at hlk
          exact Nat.lt_succ_of_lt (hbound t n hlk)

/-- The whole hover-node pass preserves inversion and the tag bound. -/
theorem create_tags_preserves (hover_nodes : List (NodeId × HoverGroup)) :
    ∀ (u : UiState) (tc : Nat),
      Inverse u.node_ids_to_tag_ids u.tag_ids_to_node_ids →
      (∀ t n, u.tag_ids_to_node_ids.lookup t = some n → t < tc) →
      Inverse (ui_state_create_tags_for_hover_nodes u hover_nodes tc).1.node_ids_to_tag_ids
          (ui_state_create_tags_for_hover_nodes u hover_nodes tc).1.tag_ids_to_node_ids ∧
      (∀ t n, (ui_state_create_tags_for_hover_nodes u hover_nodes
          tc).1.tag_ids_to_node_ids.lookup t = some n →
        t < (ui_state_create_tags_for_hover_nodes u hover_nodes tc).2) := by
  induction hover_nodes with
  | nil => intro u tc hinv hbound; exact ⟨hinv, hbound⟩
  | cons p rest ih =>
      intro u tc hinv hbound
      have hstep := create_tags_step_preserves u tc p hinv hbound
      rcases hl : u.node_ids_to_tag_ids.lookup p.1 with - | tag_id
      all_goals
        rw [hl] at hstep
        simp only [ui_state_create_tags_for_hover_nodes, List.foldl_cons, hl]
          at ih ⊢
        exact ih _ _ hstep.1 hstep.2

/-! ## Walking invariant for the window-callback claim -/

/-- Invariant while walking the node loop for claim C7: both focus maps
are still empty (no focus callback seen so far), and all keys of the
window maps and of `node_ids_to_tag_ids` are below the iteration
index. -/
def C7Inv (k : Nat) (st : FoldSt) : Prop :=
  st.focus_callbacks = Map.empty ∧
  st.focus_default_callbacks = Map.empty ∧
  (∀ n v, st.window_callbacks.lookup n = some v → n < k) ∧
  (∀ n v, st.window_default_callbacks.lookup n = some v → n < k) ∧
  (∀ n t, st.node_ids_to_tag_ids.lookup n = some t → n < k)

theorem C7Inv_initial (tc : Nat) : C7Inv 0 (FoldSt.initial tc) := by
  refine ⟨rfl, rfl, ?_, ?_, ?_⟩ <;>
    · intro n v h
      exact absurd h (by simp [FoldSt.initial, Map.empty, Map.lookup])

/-- `processNode` leaves the focus maps alone when the node carries no
focus-family callbacks. -/
theorem processNode_focus_fields (k : NodeId) (node : NodeData) (st : FoldSt)
    (h1 : (collectFilterMap EventFilter.as_focus_event_filter
        node.callbacks).isEmpty = true)
    (h2 : (collectFilterMap EventFilter.as_focus_event_filter
        node.default_callback_ids).isEmpty = true) :
    (processNode k node st).focus_callbacks = st.focus_callbacks ∧
    (processNode k node st).focus_default_callbacks =
      st.focus_default_callbacks := by
  simp only [processNode]
  constructor
  · rw [(cssOverridesStep_frame k node _).2.2.2.1,
      (tagMapsStep_callbacks_frame k _ _).1,
      (tabIndexStep_callbacks_frame k node _ _).1,
      (draggableStep_callbacks_frame k node _ _).1,
      (defaultCallbacksStep_regulars_frame k node _ _).1,
      regularCallbacksStep_focus_of_empty k node st h1]
  · rw [(cssOverridesStep_frame k node _).2.2.2.2.1,
      (tagMapsStep_callbacks_frame k _ _).2.1,
      (tabIndexStep_callbacks_frame k node _ _).2.1,
      (draggableStep_callbacks_frame k node _ _).2.1,
      defaultCallbacksStep_focus_of_empty k node _ _ h2,
      (regularCallbacksStep_defaults_frame k node st).1]

/-- The window maps after `processNode` are exactly the untagged filter
steps applied to the incoming maps. -/
theorem processNode_window_fields (k : NodeId) (node : NodeData)
    (st : FoldSt) :
    (processNode k node st).window_callbacks =
      filterAndInsertUntagged EventFilter.as_window_event_filter
        node.callbacks k st.window_callbacks ∧
    (processNode k node st).window_default_callbacks =
      filterAndInsertUntagged EventFilter.as_window_event_filter
        node.default_callback_ids k st.window_default_callbacks := by
  simp only [processNode]
  constructor
  · rw [(cssOverridesStep_frame k node _).2.2.2.2.2.1,
      (tagMapsStep_callbacks_frame k _ _).2.2.1,
      (tabIndexStep_callbacks_frame k node _ _).2.2.1,
      (draggableStep_callbacks_frame k node _ _).2.2.1,
      (defaultCallbacksStep_regulars_frame k node _ _).2,
      regularCallbacksStep_window_char k node st]
  · rw [(cssOverridesStep_frame k node _).2.2.2.2.2.2,
      (tagMapsStep_callbacks_frame k _ _).2.2.2,
      (tabIndexStep_callbacks_frame k node _ _).2.2.2,
      (draggableStep_callbacks_frame k node _ _).2.2.2,
      defaultCallbacksStep_window_char k node _ _,
      (regularCallbacksStep_defaults_frame k node st).2]

theorem processNode_preserves_C7Inv (k : Nat) (node : NodeData)
    (st : FoldSt)
    (hfree1 : ∀ p ∈ node.callbacks,
      EventFilter.as_focus_event_filter p.1 = none)
    (hfree2 : ∀ p ∈ node.default_callback_ids,
      EventFilter.as_focus_event_filter p.1 = none)
    (h : C7Inv k st) : C7Inv (k + 1) (processNode k node st) := by
  obtain ⟨hf1, hf2, hw, hwd, hn⟩ := h
  have he1 : (collectFilterMap EventFilter.as_focus_event_filter
      node.callbacks).isEmpty = true := by
    rw [collectFilterMap_eq_empty _ _ hfree1]; rfl
  have he2 : (collectFilterMap EventFilter.as_focus_event_filter
      node.default_callback_ids).isEmpty = true := by
    rw [collectFilterMap_eq_empty _ _ hfree2]; rfl
  obtain ⟨hc1, hc2⟩ := processNode_focus_fields k node st he1 he2
  obtain ⟨hwc, hwdc⟩ := processNode_window_fields k node st
  refine ⟨?_, ?_, ?_, ?_, ?_⟩
  · rw [hc1]; exact hf1
  · rw [hc2]; exact hf2
  · intro n v hl
    rw [hwc, filterAndInsertUntagged_lookup] at hl
    by_cases hk : n = k
    · subst hk; exact Nat.lt_succ_self _
    · rw [if_neg hk] at hl
      exact Nat.lt_succ_of_lt (hw n v hl)
  · intro n v hl
    rw [hwdc, filterAndInsertUntagged_lookup] at hl
    by_cases hk : n = k
    · subst hk; exact Nat.lt_succ_self _
    · rw [if_neg hk] at hl
      exact Nat.lt_succ_of_lt (hwd n v hl)
  · intro n t hl
    rcases (processNode_pair_maps k node st).2 with ⟨-, e2⟩ | ⟨t', -, -, -, e2⟩
    · rw [e2] at hl
      exact Nat.lt_succ_of_lt (hn n t hl)
    · rw [e2, Map.lookup_insert] at hl
      by_cases hk : n = k
      · subst hk; exact Nat.lt_succ_self _
      · rw [if_neg hk] at hl
        exact Nat.lt_succ_of_lt (hn n t hl)

/-- Processing a node with a different id leaves the lookups of node `i`
untouched. -/
theorem processNode_lookup_ne (k : NodeId) (node : NodeData) (st : FoldSt)
    (i : NodeId) (hne : i ≠ k) :
    (processNode k node st).node_ids_to_tag_ids.lookup i =
        st.node_ids_to_tag_ids.lookup i ∧
    (processNode k node st).window_callbacks.lookup i =
        st.window_callbacks.lookup i ∧
    (processNode k node st).window_default_callbacks.lookup i =
        st.window_default_callbacks.lookup i := by
  obtain ⟨hwc, hwdc⟩ := processNode_window_fields k node st
  refine ⟨?_, ?_, ?_⟩
  · rcases (processNode_pair_maps k node st).2 with ⟨-, e2⟩ | ⟨t, -, -, -, e2⟩
    · rw [e2]
    · rw [e2, Map.lookup_insert_ne _ _ _ _ hne]
  · rw [hwc, filterAndInsertUntagged_lookup, if_neg hne]
  · rw [hwdc, filterAndInsertUntagged_lookup, if_neg hne]

/-- A run that starts past node `i` never changes node `i`'s lookups. -/
theorem runNodes_lookup_of_lt (nodes : List NodeData) :
    ∀ (k : Nat) (st : FoldSt) (i : NodeId), i < k →
      (runNodes k nodes st).node_ids_to_tag_ids.lookup i =
          st.node_ids_to_tag_ids.lookup i ∧
      (runNodes k nodes st).window_callbacks.lookup i =
          st.window_callbacks.lookup i ∧
      (runNodes k nodes st).window_default_callbacks.lookup i =
          st.window_default_callbacks.lookup i := by
  induction nodes with
  | nil => intro k st i _; exact ⟨rfl, rfl, rfl⟩
  | cons node rest ih =>
      intro k st i hik
      have h1 := ih (k + 1) (processNode k node st) i (Nat.lt_succ_of_lt hik)
      have h2 := processNode_lookup_ne k node st i (Nat.ne_of_lt hik)
      exact ⟨h1.1.trans h2.1, h1.2.1.trans h2.2.1, h1.2.2.trans h2.2.2⟩

/-- If all hover/focus/not collections of the regular callbacks are
empty, the regular step allocates no tag and keeps the counter. -/
theorem regularCallbacksStep_all_window (nid : NodeId) (node : NodeData)
    (st : FoldSt)
    (h1 : (collectFilterMap EventFilter.as_hover_event_filter
        node.callbacks).isEmpty = true)
    (h2 : (collectFilterMap EventFilter.as_focus_event_filter
        node.callbacks).isEmpty = true)
    (h3 : (collectFilterMap EventFilter.as_not_event_filter
        node.callbacks).isEmpty = true) :
    (regularCallbacksStep nid node st).2 = none ∧
    (regularCallbacksStep nid node st).1.tag_counter = st.tag_counter := by
  simp only [regularCallbacksStep]
  split
  · exact ⟨rfl, rfl⟩
  · rw [filterAndInsertTagged_of_isEmpty _ _ _ _ _ _ h1,
      filterAndInsertTagged_of_isEmpty _ _ _ _ _ _ h2,
      filterAndInsertTagged_of_isEmpty _ _ _ _ _ _ h3]
    exact ⟨rfl, rfl⟩

/-- If all hover/focus/not collections of the default callbacks are
empty, the default step keeps `node_tag_id` and the counter. -/
theorem defaultCallbacksStep_ntid (nid : NodeId) (node : NodeData)
    (st : FoldSt) (ntid : Option TagId)
    (h1 : (collectFilterMap EventFilter.as_hover_event_filter
        node.default_callback_ids).isEmpty = true)
    (h2 : (collectFilterMap EventFilter.as_focus_event_filter
        node.default_callback_ids).isEmpty = true)
    (h3 : (collectFilterMap EventFilter.as_not_event_filter
        node.default_callback_ids).isEmpty = true) :
    (defaultCallbacksStep nid node st ntid).2 = ntid ∧
    (defaultCallbacksStep nid node st ntid).1.tag_counter =
      st.tag_counter := by
  simp only [defaultCallbacksStep]
  split
  · exact ⟨rfl, rfl⟩
  · rw [filterAndInsertTagged_of_isEmpty _ _ _ _ _ _ h1,
      filterAndInsertTagged_of_isEmpty _ _ _ _ _ _ h2,
      filterAndInsertTagged_of_isEmpty _ _ _ _ _ _ h3]
    exact ⟨rfl, rfl⟩

theorem draggableStep_eq_of_not (nid : NodeId) (node : NodeData)
    (st : FoldSt) (ntid : Option TagId) (h : node.is_draggable = false) :
    draggableStep nid node st ntid = (st, ntid) := by
  simp [draggableStep, h]

theorem tabIndexStep_eq_of_none (nid : NodeId) (node : NodeData)
    (st : FoldSt) (ntid : Option TagId) (htab : node.tab_index = none)
    (hf1 : st.focus_callbacks = Map.empty)
    (hf2 : st.focus_default_callbacks = Map.empty) :
    tabIndexStep nid node st ntid = (st, ntid) := by
  simp [tabIndexStep, htab, hf1, hf2, Map.isEmpty, Map.empty, Option.or]

/-- At a node whose callbacks are all of the window family, which is not
draggable and has no explicit tab index, processed while the focus maps
are still empty, the node loop does not touch `node_ids_to_tag_ids`. -/
theorem processNode_at_window_node (k : NodeId) (node : NodeData)
    (st : FoldSt)
    (hwin1 : ∀ p ∈ node.callbacks, ∃ w, p.1 = EventFilter.window w)
    (hwin2 : ∀ p ∈ node.default_callback_ids,
      ∃ w, p.1 = EventFilter.window w)
    (hdrag : node.is_draggable = false)
    (htab : node.tab_index = none)
    (hf1 : st.focus_callbacks = Map.empty)
    (hf2 : st.focus_default_callbacks = Map.empty) :
    (processNode k node st).node_ids_to_tag_ids =
      st.node_ids_to_tag_ids := by
  have hnone1 : ∀ p ∈ node.callbacks,
      EventFilter.as_hover_event_filter p.1 = none := by
    intro p hp
    obtain ⟨w, hw⟩ := hwin1 p hp
    rw [hw]; rfl
  have hnone2 : ∀ p ∈ node.callbacks,
      EventFilter.as_focus_event_filter p.1 = none := by
    intro p hp
    obtain ⟨w, hw⟩ := hwin1 p hp
    rw [hw]; rfl
  have hnone3 : ∀ p ∈ node.callbacks,
      EventFilter.as_not_event_filter p.1 = none := by
    intro p hp
    obtain ⟨w, hw⟩ := hwin1 p hp
    rw [hw]; rfl
  have hnone1' : ∀ p ∈ node.default_callback_ids,
      EventFilter.as_hover_event_filter p.1 = none := by
    intro p hp
    obtain ⟨w, hw⟩ := hwin2 p hp
    rw [hw]; rfl
  have hnone2' : ∀ p ∈ node.default_callback_ids,
      EventFilter.as_focus_event_filter p.1 = none := by
    intro p hp
    obtain ⟨w, hw⟩ := hwin2 p hp
    rw [hw]; rfl
  have hnone3' : ∀ p ∈ node.default_callback_ids,
      EventFilter.as_not_event_filter p.1 = none := by
    intro p hp
    obtain ⟨w, hw⟩ := hwin2 p hp
    rw [hw]; rfl
  have he1 : (collectFilterMap EventFilter.as_hover_event_filter
      node.callbacks).isEmpty = true := by
    rw [collectFilterMap_eq_empty _ _ hnone1]; rfl
  have he2 : (collectFilterMap EventFilter.as_focus_event_filter
      node.callbacks).isEmpty = true := by
    rw [collectFilterMap_eq_empty _ _ hnone2]; rfl
  have he3 : (collectFilterMap EventFilter.as_not_event_filter
      node.callbacks).isEmpty = true := by
    rw [collectFilterMap_eq_empty _ _ hnone3]; rfl
  have he1' : (collectFilterMap EventFilter.as_hover_event_filter
      node.default_callback_ids).isEmpty = true := by
    rw [collectFilterMap_eq_empty _ _ hnone1']; rfl
  have he2' : (collectFilterMap EventFilter.as_focus_event_filter
      node.default_callback_ids).isEmpty = true := by
    rw [collectFilterMap_eq_empty _ _ hnone2']; rfl
  have he3' : (collectFilterMap EventFilter.as_not_event_filter
      node.default_callback_ids).isEmpty = true := by
    rw [collectFilterMap_eq_empty _ _ hnone3']; rfl
  obtain ⟨hr2, -⟩ := regularCallbacksStep_all_window k node st he1 he2 he3
  simp only [processNode]
  rw [hr2]
  obtain ⟨hd2, -⟩ := defaultCallbacksStep_ntid k node
    (regularCallbacksStep k node st).1 none he1' he2' he3'
  rw [hd2]
  rw [draggableStep_eq_of_not k node _ none hdrag]
  have hf1' : (defaultCallbacksStep k node (regularCallbacksStep k node st).1
      none).1.focus_callbacks = Map.empty := by
    rw [(defaultCallbacksStep_regulars_frame k node _ none).1,
      regularCallbacksStep_focus_of_empty k node st he2, hf1]
  have hf2' : (defaultCallbacksStep k node (regularCallbacksStep k node st).1
      none).1.focus_default_callbacks = Map.empty := by
    rw [defaultCallbacksStep_focus_of_empty k node _ none he2',
      (regularCallbacksStep_defaults_frame k node st).1, hf2]
  dsimp only
  rw [tabIndexStep_eq_of_none k node _ none htab hf1' hf2']
  dsimp only
  rw [tagMapsStep_none]
  rw [(cssOverridesStep_frame k node _).2.1,
    (defaultCallbacksStep_spec k node _ none).2.1,
    (regularCallbacksStep_spec k node st).2.1]

/-- Main induction for claim C7: if every node up to position `j` is
free of focus-family callbacks and the node at `j` has only
window-family callbacks, is not draggable and has no explicit tab index,
then after the run that node has no entry in `node_ids_to_tag_ids`,
while its window-family callbacks are recorded. -/
theorem runNodes_C7_main (nodes : List NodeData) :
    ∀ (k : Nat) (st : FoldSt) (j : Nat) (node : NodeData),
      nodes.get? j = some node →
      (∀ j' nj, j' ≤ j → nodes.get? j' = some nj →
        (∀ p ∈ nj.callbacks,
          EventFilter.as_focus_event_filter p.1 = none) ∧
        (∀ p ∈ nj.default_callback_ids,
          EventFilter.as_focus_event_filter p.1 = none)) →
      (∀ p ∈ node.callbacks, ∃ w, p.1 = EventFilter.window w) →
      (∀ p ∈ node.default_callback_ids, ∃ w, p.1 = EventFilter.window w) →
      node.is_draggable = false →
      node.tab_index = none →
      C7Inv k st →
      ((runNodes k nodes st).node_ids_to_tag_ids.lookup (k + j) = none ∧
       (runNodes k nodes st).window_callbacks.lookup (k + j) =
         (if (collectFilterMap EventFilter.as_window_event_filter
              node.callbacks).isEmpty
          then none
          else some (collectFilterMap EventFilter.as_window_event_filter
            node.callbacks)) ∧
       (runNodes k nodes st).window_default_callbacks.lookup (k + j) =
         (if (collectFilterMap EventFilter.as_window_event_filter
              node.default_callback_ids).isEmpty
          then none
          else some (collectFilterMap EventFilter.as_window_event_filter
            node.default_callback_ids))) := by
  induction nodes with
  | nil =>
      intro k st j node hj
      cases hj
  | cons node0 rest ih =>
      intro k st j node hj hfocus hwin1 hwin2 hdrag htab hinv
      cases j with
      | zero =>
          have hnode0 : node0 = node := by simpa using hj
          subst hnode0
          have hstep_nodemap := processNode_at_window_node k node0 st
            hwin1 hwin2 hdrag htab hinv.1 hinv.2.1
          obtain ⟨hwc, hwdc⟩ := processNode_window_fields k node0 st
          have hsuf := runNodes_lookup_of_lt rest (k + 1)
            (processNode k node0 st) k (Nat.lt_succ_self k)
          refine ⟨?_, ?_, ?_⟩
          · have hthis : (processNode k node0 st).node_ids_to_tag_ids.lookup k
                = none := by
              rw [hstep_nodemap]
              cases hl : st.node_ids_to_tag_ids.lookup k with
              | none => rfl
              | some t => exact absurd (hinv.2.2.2.2 k t hl) (Nat.lt_irrefl k)
            exact hsuf.1.trans hthis
          · have hlkp : (processNode k node0 st).window_callbacks.lookup k =
                (if (collectFilterMap EventFilter.as_window_event_filter
                    node0.callbacks).isEmpty
                 then none
                 else some (collectFilterMap EventFilter.as_window_event_filter
                    node0.callbacks)) := by
              rw [hwc, filterAndInsertUntagged_lookup, if_pos rfl]
              have hnone : st.window_callbacks.lookup k = none := by
                cases hl : st.window_callbacks.lookup k with
                | none => rfl
                | some v => exact absurd (hinv.2.2.1 k v hl) (Nat.lt_irrefl k)
              rw [hnone]
            exact hsuf.2.1.trans hlkp
          · have hlkp : (processNode k node0 st).window_default_callbacks.lookup k =
                (if (collectFilterMap EventFilter.as_window_event_filter
                    node0.default_callback_ids).isEmpty
                 then none
                 else some (collectFilterMap EventFilter.as_window_event_filter
                    node0.default_callback_ids)) := by
              rw [hwdc, filterAndInsertUntagged_lookup, if_pos rfl]
              have hnone : st.window_default_callbacks.lookup k = none := by
                cases hl : st.window_default_callbacks.lookup k with
                | none => rfl
                | some v => exact absurd (hinv.2.2.2.1 k v hl) (Nat.lt_irrefl k)
              rw [hnone]
            exact hsuf.2.2.trans hlkp
      | succ j' =>
          have hj' : rest.get? j' = some node := by simpa using hj
          have hfocus' : ∀ j'' nj, j'' ≤ j' → rest.get? j'' = some nj →
              (∀ p ∈ nj.callbacks,
                EventFilter.as_focus_event_filter p.1 = none) ∧
              (∀ p ∈ nj.default_callback_ids,
                EventFilter.as_focus_event_filter p.1 = none) := by
            intro j'' nj hle hget
            exact hfocus (j'' + 1) nj (Nat.succ_le_succ hle) (by simpa using hget)
          have hfree0 := hfocus 0 node0 (Nat.zero_le _) rfl
          have hinv' := processNode_preserves_C7Inv k node0 st
            hfree0.1 hfree0.2 hinv
          have hmain := ih (k + 1) (processNode k node0 st) j' node hj'
            hfocus' hwin1 hwin2 hdrag htab hinv'
          have harith : k + (j' + 1) = (k + 1) + j' := by omega
          rw [harith]
          exact hmain

/-! ## Theorems -/

/-- **C7**: window-family event callbacks never cause a tag to be
allocated. For every node whose callbacks and default callbacks are all
of the window family, which is not draggable and has no effective tab
index (no explicit one, and no focus callback on this or any earlier
node, so that the `Auto` rule is not triggered), the node has no entry
in `node_ids_to_tag_ids` after `ui_state_from_dom`, while its window
callbacks and window default callbacks are still recorded under its
node id. -/
theorem window_callbacks_never_tag (dom : Dom)
    (parent : Option (DomId × NodeId)) (c : Counters)
    (i : NodeId) (node : NodeData)
    (hnode : dom.nodes.get? i = some node)
    (hwin1 : ∀ p ∈ node.callbacks, ∃ w, p.1 = EventFilter.window w)
    (hwin2 : ∀ p ∈ node.default_callback_ids,
      ∃ w, p.1 = EventFilter.window w)
    (hdrag : node.is_draggable = false)
    (htab : node.tab_index = none)
    (hfocus : ∀ j nj, j ≤ i → dom.nodes.get? j = some nj →
      (∀ p ∈ nj.callbacks, EventFilter.as_focus_event_filter p.1 = none) ∧
      (∀ p ∈ nj.default_callback_ids,
        EventFilter.as_focus_event_filter p.1 = none)) :
    (ui_state_from_dom dom parent c).1.node_ids_to_tag_ids.lookup i = none ∧
    (ui_state_from_dom dom parent c).1.window_callbacks.lookup i =
      (if (collectFilterMap EventFilter.as_window_event_filter
          node.callbacks).isEmpty
       then none
       else some (collectFilterMap EventFilter.as_window_event_filter
         node.callbacks)) ∧
    (ui_state_from_dom dom parent c).1.window_default_callbacks.lookup i =
      (if (collectFilterMap EventFilter.as_window_event_filter
          node.default_callback_ids).isEmpty
       then none
       else some (collectFilterMap EventFilter.as_window_event_filter
         node.default_callback_ids)) := by
  have h := runNodes_C7_main dom.nodes 0 (FoldSt.initial c.tag) i node
    hnode hfocus hwin1 hwin2 hdrag htab (C7Inv_initial c.tag)
  rw [Nat.zero_add] at h
  exact h

/-- Witness for C7: the S1-style tree of a single node with one mouseup
window callback — the node gets no tag, but its window callback is
recorded. -/
theorem window_callbacks_never_tag_witness :
    (ui_state_from_dom ⟨[⟨[(EventFilter.window 3, 9)], [], false, none, []⟩]⟩
        none ⟨0, 0⟩).1.node_ids_to_tag_ids.lookup 0 = none ∧
    (ui_state_from_dom ⟨[⟨[(EventFilter.window 3, 9)], [], false, none, []⟩]⟩
        none ⟨0, 0⟩).1.window_callbacks.lookup 0 = some [(3, 9)] := by
  have h := window_callbacks_never_tag
    ⟨[⟨[(EventFilter.window 3, 9)], [], false, none, []⟩]⟩ none ⟨0, 0⟩ 0
    ⟨[(EventFilter.window 3, 9)], [], false, none, []⟩ rfl
    (by
      intro p hp
      rw [List.mem_singleton] at hp
      subst hp
      exact ⟨3, rfl⟩)
    (by intro p hp; cases hp)
    rfl rfl
    (by
      intro j nj hle hget
      have hj0 : j = 0 := Nat.le_zero.mp hle
      subst hj0
      have : nj = ⟨[(EventFilter.window 3, 9)], [], false, none, []⟩ := by
        simpa using hget.symm
      subst this
      refine ⟨?_, ?_⟩
      · intro p hp
        rw [List.mem_singleton] at hp
        subst hp
        rfl
      · intro p hp
        cases hp)
  refine ⟨h.1, ?_⟩
  rw [h.2.1]
  rfl

/-- **C5**: after `ui_state_from_dom`, and still after a subsequent
`ui_state_create_tags_for_hover_nodes` with any hover-node set, the maps
`node_ids_to_tag_ids` and `tag_ids_to_node_ids` are exact inverses:
`(n, t)` is in the former iff `(t, n)` is in the latter. -/
theorem ui_state_tag_maps_inverse (dom : Dom)
    (parent : Option (DomId × NodeId)) (c : Counters)
    (hover_nodes : List (NodeId × HoverGroup)) (n : NodeId) (t : TagId) :
    ((ui_state_from_dom dom parent c).1.node_ids_to_tag_ids.lookup n = some t ↔
      (ui_state_from_dom dom parent c).1.tag_ids_to_node_ids.lookup t = some n) ∧
    ((ui_state_create_tags_for_hover_nodes (ui_state_from_dom dom parent c).1
        hover_nodes
        (ui_state_from_dom dom parent c).2.tag).1.node_ids_to_tag_ids.lookup n
          = some t ↔
      (ui_state_create_tags_for_hover_nodes (ui_state_from_dom dom parent c).1
        hover_nodes
        (ui_state_from_dom dom parent c).2.tag).1.tag_ids_to_node_ids.lookup t
          = some n) := by
  obtain ⟨hinv, hbound⟩ := ui_state_from_dom_InvPair dom parent c
  exact ⟨hinv n t,
    (create_tags_preserves hover_nodes _ _ hinv hbound).1 n t⟩

/-- The counter component of a `DomId`. -/
def DomId.idVal : DomId → Nat
  | .mk i _ => i

/-- The failing input for claim C1: node 0 carries a focus callback,
node 1 carries nothing at all (no callbacks, not draggable, no explicit
tab index). -/
def c1_failing_dom : Dom :=
  ⟨[⟨[(EventFilter.focus 0, 7)], [], false, none, []⟩,
    ⟨[], [], false, none, []⟩]⟩

/-- **C1** (evaluation at the failing input): node 1 of
`c1_failing_dom` has no focus callback or focus default callback of its
own (its entries in both focus maps are absent) and no explicit tab
index, yet `ui_state_from_dom` registers it in `tab_index_tags` with
`TabIndex::Auto` and allocates it a tag — because the source computes
`should_insert_tabindex_auto` from the emptiness of the whole
accumulated `focus_callbacks`/`focus_default_callbacks` maps (which
already hold node 0's entry) instead of this node's own entries. -/
theorem tab_index_auto_leaks_across_nodes :
    ((ui_state_from_dom c1_failing_dom none ⟨0, 0⟩).1.focus_callbacks).lookup 1
        = none ∧
    ((ui_state_from_dom c1_failing_dom none
        ⟨0, 0⟩).1.focus_default_callbacks).lookup 1 = none ∧
    ((ui_state_from_dom c1_failing_dom none ⟨0, 0⟩).1.tab_index_tags).lookup 1
        = some (1, TabIndex.Auto) ∧
    ((ui_state_from_dom c1_failing_dom none ⟨0, 0⟩).1.node_ids_to_tag_ids).lookup 1
        = some 1 := by decide

/-- **C8** (counterexample): two successive runs of `ui_state_from_dom`
on the same one-node tree with the same parent backref — the second run
starting from the counters returned by the first, whose tag component is
unchanged (and is reset inside the pass anyway) — produce different
`dom_id` fields, because the DOM counter is never reset. -/
theorem ui_state_from_dom_dom_id_differs :
    (ui_state_from_dom ⟨[⟨[], [], false, none, []⟩]⟩ none ⟨0, 0⟩).2.tag = 0 ∧
    (ui_state_from_dom ⟨[⟨[], [], false, none, []⟩]⟩ none
        ⟨0, 0⟩).1.dom_id.idVal ≠
      (ui_state_from_dom ⟨[⟨[], [], false, none, []⟩]⟩ none
        ((ui_state_from_dom ⟨[⟨[], [], false, none, []⟩]⟩ none
          ⟨0, 0⟩).2)).1.dom_id.idVal := by decide

/-- **C8** (amended): `ui_state_from_dom` on equal input trees with the
same parent backref produces outputs that are equal in every field
except possibly `dom_id` (whatever the incoming counters are — the tag
counter is reset at the start of the pass), the returned tag counter is
the same, and with equal DOM-counter starting values the outputs are
equal in every field. -/
theorem ui_state_from_dom_deterministic_amended (dom : Dom)
    (parent : Option (DomId × NodeId)) (c c' : Counters) :
    ({ (ui_state_from_dom dom parent c).1 with dom_id := DomId.mk 0 none } =
      { (ui_state_from_dom dom parent c').1 with dom_id := DomId.mk 0 none }) ∧
    (ui_state_from_dom dom parent c).2.tag =
      (ui_state_from_dom dom parent c').2.tag ∧
    (c.dom = c'.dom →
      ui_state_from_dom dom parent c = ui_state_from_dom dom parent c') := by
  refine ⟨rfl, rfl, ?_⟩
  intro h
  obtain ⟨ct, cd⟩ := c
  obtain ⟨ct', cd'⟩ := c'
  simp only at h
  subst h
  rfl

/-- Witness for the amended C8: two runs on a concrete tree from
counters that differ in the tag component but agree in the DOM
component give fully equal results. -/
theorem ui_state_from_dom_deterministic_amended_witness :
    ui_state_from_dom ⟨[⟨[], [], true, none, []⟩]⟩ none ⟨5, 3⟩ =
      ui_state_from_dom ⟨[⟨[], [], true, none, []⟩]⟩ none ⟨9, 3⟩ :=
  (ui_state_from_dom_deterministic_amended
    ⟨[⟨[], [], true, none, []⟩]⟩ none ⟨5, 3⟩ ⟨9, 3⟩).2.2 rfl

/-- **C3**: for a timer with interval `I`, `Timer::invoke` at an instant
`now` not past its timeout invokes the callback iff `now - last ≥ I`
where `last` is `last_run` if the timer has run before and
`created + delay` (delay defaulting to 0) otherwise; on invocation it
sets `last_run := now` and returns the callback's result, on a skip it
returns `(DontRedraw, Continue)` and leaves the timer unchanged. -/
theorem timer_invoke_interval_spec {ι : Type} (t : Timer ι) (now : Nat)
    (info : ι) (I : Nat) (hI : t.interval = some I)
    (hto : ∀ X, t.timeout = some X → now - t.created ≤ X) :
    (I ≤ now - (t.last_run.getD (t.created + t.delay.getD 0)) →
      t.invoke now info = (t.callback info, { t with last_run := some now })) ∧
    (now - (t.last_run.getD (t.created + t.delay.getD 0)) < I →
      t.invoke now info = ((DontRedraw, TerminateTimer.Continue), t)) := by
  have htimeout :
      (match t.timeout with
        | some timeout => decide (now - t.created > timeout)
        | none => false) = false := by
    cases hcase : t.timeout with
    | none => rfl
    | some X =>
        have := hto X hcase
        simp
        omega
  constructor
  · intro hfire
    rw [Timer.invoke]
    rw [htimeout]
    simp only [Bool.false_eq_true, if_false, hI]
    have hskip :
        decide (now - (match t.last_run with
          | some s => s
          | none => t.created + t.delay.getD 0) < I) = false := by
      cases hlr : t.last_run with
      | none => simp only [hlr, Option.getD_none] at hfire; simp; omega
      | some s => simp only [hlr, Option.getD_some] at hfire; simp; omega
    rw [hskip]
    simp
  · intro hskip
    rw [Timer.invoke]
    rw [htimeout]
    simp only [Bool.false_eq_true, if_false, hI]
    have hskip' :
        decide (now - (match t.last_run with
          | some s => s
          | none => t.created + t.delay.getD 0) < I) = true := by
      cases hlr : t.last_run with
      | none => simp only [hlr, Option.getD_none] at hskip; simp; omega
      | some s => simp only [hlr, Option.getD_some] at hskip; simp; omega
    rw [hskip']
    simp

/-- Witness for C3: the S3 scenario's second evaluation — a timer with
`delay = 100`, `interval = 50`, created at 0 and never run, invoked at
instant 150, fires and records `last_run = 150`. -/
theorem timer_invoke_interval_spec_witness :
    Timer.invoke
        ⟨0, none, some 100, some 50, none,
          fun (_ : Unit) => (Redraw, TerminateTimer.Continue)⟩ 150 () =
      ((Redraw, TerminateTimer.Continue),
        ⟨0, some 150, some 100, some 50, none,
          fun (_ : Unit) => (Redraw, TerminateTimer.Continue)⟩) :=
  (timer_invoke_interval_spec
    ⟨0, none, some 100, some 50, none,
      fun (_ : Unit) => (Redraw, TerminateTimer.Continue)⟩
    150 () 50 rfl (fun X h => by cases h)).1 (by decide)

/-- **C4**: for a timer with timeout `X`, `Timer::invoke` at an instant
with `now - created > X` returns `(DontRedraw, Terminate)` without
invoking the callback and without modifying any timer field; whenever
`now - created ≤ X` the timeout branch does not fire and the result is
exactly the interval/callback logic. -/
theorem timer_invoke_timeout_spec {ι : Type} (t : Timer ι) (now : Nat)
    (info : ι) (X : Nat) (hX : t.timeout = some X) :
    (X < now - t.created →
      t.invoke now info = ((DontRedraw, TerminateTimer.Terminate), t)) ∧
    (now - t.created ≤ X →
      t.invoke now info =
        (if (match t.interval with
              | some interval =>
                  decide (now - (match t.last_run with
                    | some s => s
                    | none => t.created + t.delay.getD 0) < interval)
              | none => false)
          then ((DontRedraw, TerminateTimer.Continue), t)
          else (t.callback info, { t with last_run := some now }))) := by
  constructor
  · intro hpast
    rw [Timer.invoke]
    have : (match t.timeout with
        | some timeout => decide (now - t.created > timeout)
        | none => false) = true := by
      rw [hX]; simp; omega
    rw [this]
    simp
  · intro hwithin
    rw [Timer.invoke]
    have : (match t.timeout with
        | some timeout => decide (now - t.created > timeout)
        | none => false) = false := by
      rw [hX]; simp; omega
    rw [this]
    simp

/-- Witness for C4: the S4 scenario — a timer with `timeout = 200`
created at 0, invoked at instant 250, is terminated without its callback
being invoked and without any field changing. -/
theorem timer_invoke_timeout_spec_witness :
    Timer.invoke
        ⟨0, none, none, none, some 200,
          fun (_ : Unit) => (Redraw, TerminateTimer.Continue)⟩ 250 () =
      ((DontRedraw, TerminateTimer.Terminate),
        ⟨0, none, none, none, some 200,
          fun (_ : Unit) => (Redraw, TerminateTimer.Continue)⟩) :=
  (timer_invoke_timeout_spec
    ⟨0, none, none, none, some 200,
      fun (_ : Unit) => (Redraw, TerminateTimer.Continue)⟩
    250 () 200 rfl).1 (by decide)

/-- **C2** (counterexample): dropping a `Task` whose worker thread
panicked does **not** surface a non-fatal error — `Drop for Task` calls
`.join().unwrap()`, so the panic is propagated out of the drop. There is
no `TaskPanicked` in the code. -/
theorem task_drop_panicked_worker_propagates :
    (Task.dropRun
        (⟨some JoinResult.panicked, false, none⟩ : Task Unit)).1 =
      DropOutcome.panicPropagated := rfl

/-- **C2** (amended): dropping a `Task` joins its thread if not already
joined; the join result is unwrapped, so a worker panic is propagated by
the drop instead of being surfaced as an error, while a cleanly finished
or already-joined task drops normally. -/
theorem task_drop_join_behaviour {ι : Type} (t : Task ι) :
    (t.join_handle = none → t.dropRun = (DropOutcome.normal, t)) ∧
    (∀ jr, t.join_handle = some jr →
      (t.dropRun).2.join_handle = none ∧
      (t.dropRun).1 =
        (if jr = JoinResult.panicked then DropOutcome.panicPropagated
         else DropOutcome.normal)) := by
  constructor
  · intro h
    simp [Task.dropRun, h]
  · intro jr h
    cases jr <;> simp [Task.dropRun, h]

/-- Witness for the amended C2: a finished, unjoined task is joined and
dropped normally. -/
theorem task_drop_join_behaviour_witness :
    (Task.dropRun (⟨some JoinResult.finished, false, none⟩ : Task Unit)).2.join_handle
        = none ∧
    (Task.dropRun (⟨some JoinResult.finished, false, none⟩ : Task Unit)).1 =
        DropOutcome.normal := by
  have h :=
    (task_drop_join_behaviour
      (⟨some JoinResult.finished, false, none⟩ : Task Unit)).2
      JoinResult.finished rfl
  exact ⟨h.1, by simpa using h.2⟩

/-- **C9**: a `Thread` dropped without `r#await` always panics, and a
`Thread` consumed by `r#await` (which succeeds on every constructed
thread, returning the value or an await error) leaves a state that is
destroyed without panicking. -/
theorem thread_drop_panics_iff_not_awaited {τ : Type} (arc : ArcSlot τ)
    (jr : JoinResult) :
    (Thread.new arc jr).dropRun = DropOutcome.panicPropagated ∧
    (∃ r th', (Thread.new arc jr).awaitRun = some (r, th')) ∧
    (∀ th : Thread τ, ∀ r th', th.awaitRun = some (r, th') →
      th'.dropRun = DropOutcome.normal ∧ th'.join_handle = none) := by
  refine ⟨rfl, ?_, ?_⟩
  · cases jr with
    | panicked =>
        exact ⟨Except.error AwaitError.ThreadJoinError, ⟨none, none⟩, rfl⟩
    | finished =>
        by_cases hu : arc.unique
        · by_cases hp : arc.poisoned
          · refine ⟨Except.error AwaitError.MutexIntoInnerError, ⟨none, none⟩, ?_⟩
            simp [Thread.new, Thread.awaitRun, hu, hp]
          · refine ⟨Except.ok arc.value, ⟨none, none⟩, ?_⟩
            simp [Thread.new, Thread.awaitRun, hu, hp]
        · refine ⟨Except.error AwaitError.ArcUnlockError, ⟨none, none⟩, ?_⟩
          simp [Thread.new, Thread.awaitRun, hu]
  · intro th r th' h
    obtain ⟨d, j⟩ := th
    cases j with
    | none => simp [Thread.awaitRun] at h
    | some jr' =>
        cases d with
        | none => simp [Thread.awaitRun] at h
        | some arc' =>
            cases jr' with
            | panicked =>
                simp only [Thread.awaitRun, Option.some.injEq,
                  Prod.mk.injEq] at h
                obtain ⟨-, h2⟩ := h
                subst h2
                exact ⟨rfl, rfl⟩
            | finished =>
                simp only [Thread.awaitRun] at h
                split_ifs at h <;>
                · simp only [Option.some.injEq, Prod.mk.injEq] at h
                  obtain ⟨-, h2⟩ := h
                  subst h2
                  exact ⟨rfl, rfl⟩

/-- Witness for C9: a concrete finished worker — the un-awaited handle
panics on drop, the awaited one returns `Ok 5` and drops normally. -/
theorem thread_drop_panics_iff_not_awaited_witness :
    (Thread.new (⟨true, false, (5 : Nat)⟩ : ArcSlot Nat)
        JoinResult.finished).dropRun = DropOutcome.panicPropagated ∧
    Thread.dropRun (⟨none, none⟩ : Thread Nat) = DropOutcome.normal := by
  have h :=
    thread_drop_panics_iff_not_awaited
      (⟨true, false, (5 : Nat)⟩ : ArcSlot Nat) JoinResult.finished
  refine ⟨h.1, ?_⟩
  exact (h.2.2 (Thread.new ⟨true, false, 5⟩ JoinResult.finished)
    (Except.ok 5) ⟨none, none⟩ rfl).1

/-- **C10**: `add_timer` with a `TimerId` already present replaces that
timer — `get_timer` then returns the new timer and `has_timer` stays
true — and every other id's entry is unchanged. -/
theorem add_timer_replaces_existing {ι τ : Type} (s : AppState ι τ)
    (id : TimerId) (timer t_old : Timer ι)
    (_h : s.get_timer id = some t_old) :
    (s.add_timer id timer).get_timer id = some timer ∧
    (s.add_timer id timer).has_timer id = true ∧
    (∀ id', id' ≠ id →
      (s.add_timer id timer).get_timer id' = s.get_timer id') := by
  refine ⟨?_, ?_, ?_⟩
  · simp [AppState.add_timer, AppState.get_timer, Map.lookup_insert_self]
  · simp [AppState.has_timer, AppState.add_timer, AppState.get_timer,
      Map.lookup_insert_self]
  · intro id' hne
    simp [AppState.add_timer, AppState.get_timer,
      Map.lookup_insert_ne _ _ _ _ hne]

/-- Witness for C10: a state with timers under ids 0 and 1; re-adding
under id 0 replaces that entry and leaves id 1 untouched. -/
theorem add_timer_replaces_existing_witness :
    ((⟨(), [(⟨0⟩, ⟨0, none, none, none, none,
          fun (_ : Unit) => (DontRedraw, TerminateTimer.Continue)⟩),
        (⟨1⟩, ⟨7, none, none, none, none,
          fun (_ : Unit) => (DontRedraw, TerminateTimer.Continue)⟩)], []⟩ :
        AppState Unit Unit).add_timer ⟨0⟩
        ⟨3, none, none, some 16, none,
          fun (_ : Unit) => (Redraw, TerminateTimer.Continue)⟩).get_timer ⟨0⟩ =
      some ⟨3, none, none, some 16, none,
        fun (_ : Unit) => (Redraw, TerminateTimer.Continue)⟩ ∧
    ((⟨(), [(⟨0⟩, ⟨0, none, none, none, none,
          fun (_ : Unit) => (DontRedraw, TerminateTimer.Continue)⟩),
        (⟨1⟩, ⟨7, none, none, none, none,
          fun (_ : Unit) => (DontRedraw, TerminateTimer.Continue)⟩)], []⟩ :
        AppState Unit Unit).add_timer ⟨0⟩
        ⟨3, none, none, some 16, none,
          fun (_ : Unit) => (Redraw, TerminateTimer.Continue)⟩).get_timer ⟨1⟩ =
      some ⟨7, none, none, none, none,
        fun (_ : Unit) => (DontRedraw, TerminateTimer.Continue)⟩ := by
  have h :=
    add_timer_replaces_existing
      (⟨(), [(⟨0⟩, ⟨0, none, none, none, none,
          fun (_ : Unit) => (DontRedraw, TerminateTimer.Continue)⟩),
        (⟨1⟩, ⟨7, none, none, none, none,
          fun (_ : Unit) => (DontRedraw, TerminateTimer.Continue)⟩)], []⟩ :
        AppState Unit Unit) ⟨0⟩
      ⟨3, none, none, some 16, none,
        fun (_ : Unit) => (Redraw, TerminateTimer.Continue)⟩
      ⟨0, none, none, none, none,
        fun (_ : Unit) => (DontRedraw, TerminateTimer.Continue)⟩ rfl
  refine ⟨h.1, ?_⟩
  have h2 := h.2.2 ⟨1⟩ (by simp)
  rw [h2]
  rfl

/-- **C6**: `StackCheckedPointer::new` returns `Some` exactly when the
byte interval of the field is contained in the byte interval of the
parent (per the detected growth direction) and `None` otherwise: an
inline field (contained interval) succeeds, data in a disjoint separate
heap allocation fails. -/
theorem stack_checked_pointer_new_spec (t sizeT st sizeU ty : Nat) :
    ((StackCheckedPointer.new t sizeT st sizeU ty true).isSome ↔
      (t ≤ st ∧ st + sizeU ≤ t + sizeT)) ∧
    ((StackCheckedPointer.new t sizeT st sizeU ty false).isSome ↔
      (st ≤ t ∧ t - sizeT ≤ st - sizeU)) ∧
    (t ≤ st → st + sizeU ≤ t + sizeT →
      StackCheckedPointer.new t sizeT st sizeU ty true = some ⟨st, ty⟩) ∧
    (0 < sizeU → (st + sizeU ≤ t ∨ t + sizeT ≤ st) →
      StackCheckedPointer.new t sizeT st sizeU ty true = none) := by
  have hsome : ∀ sgd, (StackCheckedPointer.new t sizeT st sizeU ty sgd).isSome
      = is_subtype_of t sizeT st sizeU sgd := by
    intro sgd
    rw [StackCheckedPointer.new]
    split <;> simp_all
  refine ⟨?_, ?_, ?_, ?_⟩
  · rw [hsome, is_subtype_of]
    simp only [if_true, decide_eq_true_eq]
  · rw [hsome, is_subtype_of]
    simp only [Bool.false_eq_true, if_false, decide_eq_true_eq]
  · intro h1 h2
    rw [StackCheckedPointer.new]
    have hc : is_subtype_of t sizeT st sizeU true = true := by
      rw [is_subtype_of]
      simp only [if_true, decide_eq_true_eq]
      omega
    rw [hc]
    simp
  · intro hU hdisj
    rw [StackCheckedPointer.new]
    have hc : is_subtype_of t sizeT st sizeU true = false := by
      rw [is_subtype_of]
      simp only [if_true, decide_eq_false_iff_not]
      omega
    rw [hc]
    simp

/-- Witness for C6: a parent at address 100 of size 16 — the inline
field at 104 of size 8 is accepted, a heap pointee at address 5000
fails. -/
theorem stack_checked_pointer_new_spec_witness :
    StackCheckedPointer.new 100 16 104 8 42 true = some ⟨104, 42⟩ ∧
    StackCheckedPointer.new 100 16 5000 8 42 true = none := by
  constructor
  · exact (stack_checked_pointer_new_spec 100 16 104 8 42).2.2.1
      (by norm_num) (by norm_num)
  · exact (stack_checked_pointer_new_spec 100 16 5000 8 42).2.2.2
      (by norm_num) (Or.inr (by norm_num))

end Azul
